import Mathlib

/-!
# tinyproxy `utils.c`: a shallow embedding and its verified properties

The development follows `src/utils.c`:

* `strlcpy`, `strlcat`            bounded string copy and append,
* `send_http_message`, `httperr`  the HTTP error response,
* `create_file_safely`            race-aware creation of the PID file,
* `pidfile_create`                writing the process id.

Conventions.

* C strings and buffers are lists of `Char`, one element per byte.  In part 1
  a memory object is the list of all its bytes, terminator included; an
  access outside the object is undefined behaviour in C and is `none` here.
  `size_t` is taken to be 64 bits wide and its arithmetic is written with
  explicit reduction modulo `2 ^ 64`.
* In part 2 a string argument is given by its text, without the terminator,
  and `snprintf` is given by the text it leaves in the buffer.
* In part 3 the system calls are functions on a `World`, which also holds
  what other processes do between two calls and which calls are made to
  fail, so that a statement about every world covers every interleaving and
  every failure.
* `HAVE_FTRUNCATE`, `PACKAGE`, `VERSION` and `MAXBUFFSIZE` come from headers
  that are not among the sources; they are the fields of `Config`.

All definitions come first, the theorems follow.
-/

namespace Tinyproxy

/-! ## Part 1: memory objects and the bounded string primitives -/

/-- Number of values of `size_t` (64-bit). -/
def SIZE_MOD : Nat := 2 ^ 64

/-- Subtraction in `size_t`: wraps around below zero. -/
def size_sub (a b : Nat) : Nat := (a + SIZE_MOD - b % SIZE_MOD) % SIZE_MOD

/-- Addition in `size_t`. -/
def size_add (a b : Nat) : Nat := (a + b) % SIZE_MOD

/-- The terminator byte. -/
def NUL : Char := '\x00'

/-- C `strlen` over a memory object: the index of the first terminator;
`none` when the object holds no terminator (the scan leaves the object). -/
def strlen : List Char → Option Nat
  | [] => none
  | c :: cs => if c = NUL then some 0 else (strlen cs).map (· + 1)

/-- C `memcpy (dst + off, src, n)`: defined only when `n` bytes can be read
from `src` and written inside `dst`. -/
def memcpy (dst : List Char) (off : Nat) (src : List Char) (n : Nat) :
    Option (List Char) :=
  if n ≤ src.length ∧ off + n ≤ dst.length then
    some (dst.take off ++ src.take n ++ dst.drop (off + n))
  else none

/-- The assignment `dst[i] = c`, defined inside the object only. -/
def store (dst : List Char) (i : Nat) (c : Char) : Option (List Char) :=
  if i < dst.length then some (dst.set i c) else none

/-- The text held by a buffer: the bytes before the first terminator. -/
def cstr (buf : List Char) : List Char := buf.takeWhile (· ≠ NUL)

/-- `strlcpy (dst, src, size)` of `utils.c`: the new destination object and
the returned `size_t`. -/
def strlcpy (dst src : List Char) (size : Nat) : Option (List Char × Nat) :=
  match strlen src with
  | none => none
  | some len0 =>
    let ret := len0
    let len := if len0 ≥ size then size_sub size 1 else len0
    match memcpy dst 0 src len with
    | none => none
    | some dst1 =>
      match store dst1 len NUL with
      | none => none
      | some dst2 => some (dst2, ret)

/-- `strlcat (dst, src, size)` of `utils.c`: the new destination object and
the returned `size_t`. -/
def strlcat (dst src : List Char) (size : Nat) : Option (List Char × Nat) :=
  match strlen dst, strlen src with
  | some len1, some len2 =>
    let ret := size_add len1 len2
    let len2 := if size_add len1 len2 ≥ size then size_sub (size_sub size len1) 1 else len2
    if len2 > 0 then
      match memcpy dst len1 src len2 with
      | none => none
      | some dst1 =>
        match store dst1 (len1 + len2) NUL with
        | none => none
        | some dst2 => some (dst2, ret)
    else some (dst, ret)
  | _, _ => none

/-! ## Part 2: the HTTP error response -/

/-- Constants that `utils.c` takes from the build configuration and from
`tinyproxy.h`, neither of which is part of the sources at hand. -/
structure Config where
  PACKAGE : List Char
  VERSION : List Char
  MAXBUFFSIZE : Nat
  HAVE_FTRUNCATE : Bool

/-- The macro `HEADER_SIZE` of `utils.c`. -/
def HEADER_SIZE : Nat := 1024 * 8

/-- The conversion `%d` of `printf` for an `int`. -/
def fmt_d (i : Int) : List Char :=
  match i with
  | Int.ofNat n => Nat.toDigits 10 n
  | Int.negSucc n => '-' :: Nat.toDigits 10 (n + 1)

/-- The `int` that `%d` reads when the argument passed is a `size_t`: the low
32 bits, in two's complement. -/
def int_of_size (n : Nat) : Int :=
  if n % 2 ^ 32 < 2 ^ 31 then Int.ofNat (n % 2 ^ 32) else Int.ofNat (n % 2 ^ 32) - 2 ^ 32

/-- The text left in the buffer by `snprintf (buf, n, ...)`, given the fully
formatted text: at most `n - 1` bytes are stored before the terminator. -/
def snprintf (n : Nat) (text : List Char) : List Char := text.take (n - 1)

/-- The format `headers` of `send_http_message`, filled in. -/
def headers_fmt (http_code : Int) (error_title PACKAGE VERSION timebuf : List Char)
    (len : Int) : List Char :=
  "HTTP/1.0 ".toList ++ fmt_d http_code ++ " ".toList ++ error_title ++ "\r\n".toList ++
  "Server: ".toList ++ PACKAGE ++ "/".toList ++ VERSION ++ "\r\n".toList ++
  "Date: ".toList ++ timebuf ++ "\r\n".toList ++
  "Content-Type: text/html\r\n".toList ++
  "Content-Length: ".toList ++ fmt_d len ++ "\r\n".toList ++
  "Connection: close\r\n".toList ++ "\r\n".toList

/-- The format `message` of `httperr`, filled in. -/
def message_fmt (msg : List Char) (err : Int) (PACKAGE VERSION : List Char) : List Char :=
  "<html><head><title>".toList ++ msg ++ "</title></head>\r\n".toList ++
  "<body>\r\n".toList ++
  "<font size=\"+2\">Cache Error!</font><br>\r\n".toList ++
  "An error of type ".toList ++ fmt_d err ++ " occurred: ".toList ++ msg ++ "\r\n".toList ++
  "<hr>\r\n".toList ++
  "<font size=\"-1\"><em>Generated by ".toList ++ PACKAGE ++ " (".toList ++ VERSION ++
    ")</em></font>\r\n".toList ++
  "</body></html>\r\n\r\n".toList

/-- The fields of `struct conn_s` that `utils.c` touches. -/
structure conn_s where
  client_fd : Int
  send_message : Bool

/-- What the responder sees of its environment: the writes requested so far
on client descriptors, the outcomes of the coming allocations (`false` is a
failed `malloc`; none listed means success) and the text `strftime` produces
for the current time. -/
structure Net where
  writes : List (Int × List Char)
  allocs : List Bool
  date : List Char

/-- The allocator `safemalloc`: reports whether the allocation succeeded. -/
def safemalloc (s : Net) : Bool × Net :=
  match s.allocs with
  | [] => (true, s)
  | ok :: rest => (ok, { s with allocs := rest })

/-- Modelled from the spec: `safe_write` of `sock.c`, the byte sink "accepting
(buffer, length)"; the request is recorded, its transport is the sink's
concern. -/
def safe_write (s : Net) (fd : Int) (buf : List Char) (count : Nat) : Net :=
  { s with writes := s.writes ++ [(fd, buf.take count)] }

/-- The function `send_http_message` of `utils.c`. -/
def send_http_message (cfg : Config) (s : Net) (connptr : conn_s) (http_code : Int)
    (error_title message : List Char) : Int × conn_s × Net :=
  match safemalloc s with
  | (false, s1) => (-1, connptr, s1)
  | (true, s1) =>
    let timebuf := s1.date
    let header_buffer := snprintf (HEADER_SIZE - 1)
      (headers_fmt http_code error_title cfg.PACKAGE cfg.VERSION timebuf
        (int_of_size message.length))
    let s2 := safe_write s1 connptr.client_fd header_buffer header_buffer.length
    let s3 := safe_write s2 connptr.client_fd message message.length
    (0, { connptr with send_message := true }, s3)

/-- The function `httperr` of `utils.c`. -/
def httperr (cfg : Config) (s : Net) (connptr : conn_s) (err : Int) (msg : List Char) :
    Int × conn_s × Net :=
  match safemalloc s with
  | (false, s1) => (-1, connptr, s1)
  | (true, s1) =>
    let message_buffer := snprintf (cfg.MAXBUFFSIZE - 1)
      (message_fmt msg err cfg.PACKAGE cfg.VERSION)
    match send_http_message cfg s1 connptr err msg message_buffer with
    | (r, c, s2) => if r < 0 then (-1, c, s2) else (0, c, s2)

/-- Reading a decimal numeral: the value of a non-empty string of digits. -/
def parse_digits : List Char → Option Nat
  | [] => none
  | cs => cs.foldl (fun acc c =>
      match acc with
      | none => none
      | some v => if c.isDigit then some (10 * v + (c.toNat - 48)) else none) (some 0)

/-- Reading a decimal integer with an optional leading minus sign. -/
def parse_int : List Char → Option Int
  | '-' :: cs => (parse_digits cs).map (fun v => - (v : Int))
  | cs => (parse_digits cs).map (fun v => (v : Int))

/-- A configuration used in the examples. -/
def ex_cfg : Config :=
  { PACKAGE := "tinyproxy".toList, VERSION := "1.5.0".toList,
    MAXBUFFSIZE := 1024 * 48, HAVE_FTRUNCATE := true }

/-- An environment used in the examples: nothing written yet, allocations
succeed. -/
def ex_net : Net :=
  { writes := [], allocs := [], date := "Thu, 22 Nov 2001 00:31:10 GMT".toList }

/-- A connection used in the examples. -/
def ex_conn : conn_s := { client_fd := 7, send_message := false }

/-! ## Part 3: the kernel as seen by `create_file_safely` and `pidfile_create`

The system calls are not part of `utils.c`; they are given here by a small
executable model of a file system.  A world holds the file system objects,
the directory entries, the descriptor table of the calling process, a script
of what the rest of the system does at the coming calls (changes made by
other processes just before a call, and a failure forced on the call), and
the trace of the calls made so far. -/

/-- Error numbers. -/
inductive Errno where
  | ENOENT | EEXIST | EACCES | EISDIR | ELOOP | EBADF | EIO | ENOSPC | ENOMEM | EMFILE | EINTR
deriving DecidableEq, Repr

deriving instance DecidableEq for Except

/-- The fields of `struct stat` that `utils.c` reads. -/
structure Stat where
  st_dev : Nat
  st_ino : Nat
  st_mode : Nat
  st_nlink : Nat
deriving DecidableEq, Repr

/-- File type bits of `st_mode`. -/
def S_IFMT : Nat := 0o170000

/-- Regular file. -/
def S_IFREG : Nat := 0o100000

/-- Symbolic link. -/
def S_IFLNK : Nat := 0o120000

/-- Directory. -/
def S_IFDIR : Nat := 0o040000

/-- Named pipe. -/
def S_IFIFO : Nat := 0o010000

/-- The test `S_ISREG (m)`. -/
def S_ISREG (m : Nat) : Bool := m &&& S_IFMT == S_IFREG

/-- The test `S_ISDIR (m)`. -/
def S_ISDIR (m : Nat) : Bool := m &&& S_IFMT == S_IFDIR

/-- Open for reading and writing. -/
def O_RDWR : Nat := 0o2

/-- Create the file when it does not exist. -/
def O_CREAT : Nat := 0o100

/-- Together with `O_CREAT`: fail when the path exists. -/
def O_EXCL : Nat := 0o200

/-- Truncate a regular file to length 0. -/
def O_TRUNC : Nat := 0o1000

/-- Whether `flags` holds the bit `f`. -/
def has_flag (flags f : Nat) : Bool := flags &&& f != 0

/-- A file system object: its `stat` data, its contents, and for a symbolic
link the path it points to. -/
structure Node where
  st : Stat
  data : List Char
  target : Option String
deriving DecidableEq, Repr

/-- A change made to the file system by another process. -/
inductive Act where
  | bind (path : String) (id : Nat)
  | unbind (path : String)
  | put (id : Nat) (n : Node)
deriving DecidableEq, Repr

/-- What the rest of the system does at one call: the changes made just
before it, and the failure forced on it, if any. -/
structure Step where
  acts : List Act
  fault : Option Errno
deriving DecidableEq, Repr

/-- The calls that leave a mark in the trace. -/
inductive Event where
  | lstat (path : String)
  | open (path : String) (flags : Nat) (mode : Option Nat)
  | fstat (fd : Nat)
  | close (fd : Nat)
  | ftruncate (fd : Nat) (len : Nat)
  | unlink (path : String)
  | fdopen (fd : Nat)
  | write (fd : Nat) (data : List Char)
  | log (msg : String)
deriving DecidableEq, Repr

/-- The state of the system around the calling process. -/
structure World where
  nodes : List (Nat × Node)
  names : List (String × Nat)
  fds : List (Nat × Nat)
  script : List Step
  trace : List Event
  pid : Int
deriving DecidableEq, Repr

/-- One change by another process.  The descriptor table of the calling
process is out of reach. -/
def Act.apply (w : World) : Act → World
  | Act.bind p id => { w with names := (p, id) :: w.names.filter (fun e => e.1 ≠ p) }
  | Act.unbind p => { w with names := w.names.filter (fun e => e.1 ≠ p) }
  | Act.put id n => { w with nodes := (id, n) :: w.nodes.filter (fun e => e.1 ≠ id) }

/-- Entering a call: the next step of the script happens. -/
def tick (w : World) : Option Errno × World :=
  match w.script with
  | [] => (none, w)
  | s :: rest => (s.fault, s.acts.foldl Act.apply { w with script := rest })

/-- Adding an event to the trace. -/
def record (w : World) (e : Event) : World := { w with trace := w.trace ++ [e] }

/-- Replacing the object `id`. -/
def set_node (w : World) (id : Nat) (n : Node) : World :=
  { w with nodes := (id, n) :: w.nodes.filter (fun e => e.1 ≠ id) }

/-- Following symbolic links from `p`, at most `fuel` of them: the final
path and the object there, if any. -/
def resolve (w : World) : Nat → String → Except Errno (String × Option (Nat × Node))
  | 0, _ => .error Errno.ELOOP
  | fuel + 1, p =>
    match w.names.lookup p with
    | none => .ok (p, none)
    | some id =>
      match w.nodes.lookup id with
      | none => .ok (p, none)
      | some n =>
        match n.target with
        | some t => resolve w fuel t
        | none => .ok (p, some (id, n))

/-- An object identifier not in use. -/
def fresh_id (w : World) : Nat := (w.nodes.map (·.1)).foldr max 0 + 1

/-- A descriptor not in use. -/
def fresh_fd (w : World) : Nat := (w.fds.map (·.1)).foldr max 2 + 1

/-- The call `lstat (path, &st)`: the link itself is examined. -/
def sys_lstat (path : String) (w : World) : Except Errno Stat × World :=
  match tick w with
  | (some e, w1) => (.error e, record w1 (Event.lstat path))
  | (none, w1) =>
    let w2 := record w1 (Event.lstat path)
    match w2.names.lookup path with
    | none => (.error Errno.ENOENT, w2)
    | some id =>
      match w2.nodes.lookup id with
      | none => (.error Errno.ENOENT, w2)
      | some n => (.ok n.st, w2)

/-- The call `open (path, flags, mode)`. -/
def sys_open (path : String) (flags : Nat) (mode : Option Nat) (w : World) :
    Except Errno Nat × World :=
  match tick w with
  | (some e, w1) => (.error e, record w1 (Event.open path flags mode))
  | (none, w1) =>
    let w2 := record w1 (Event.open path flags mode)
    if has_flag flags O_CREAT && has_flag flags O_EXCL && (w2.names.lookup path).isSome then
      (.error Errno.EEXIST, w2)
    else
      match resolve w2 8 path with
      | .error e => (.error e, w2)
      | .ok (p, none) =>
        if has_flag flags O_CREAT then
          let id := fresh_id w2
          let n : Node :=
            { st := { st_dev := 1, st_ino := id, st_mode := S_IFREG ||| mode.getD 0,
                      st_nlink := 1 },
              data := [], target := none }
          let fd := fresh_fd w2
          (.ok fd, { w2 with nodes := (id, n) :: w2.nodes,
                             names := (p, id) :: w2.names.filter (fun e => e.1 ≠ p),
                             fds := (fd, id) :: w2.fds })
        else (.error Errno.ENOENT, w2)
      | .ok (_, some (id, n)) =>
        if S_ISDIR n.st.st_mode then (.error Errno.EISDIR, w2)
        else
          let w3 := if has_flag flags O_TRUNC && S_ISREG n.st.st_mode then
              set_node w2 id { n with data := [] } else w2
          let fd := fresh_fd w3
          (.ok fd, { w3 with fds := (fd, id) :: w3.fds })

/-- The call `fstat (fd, &st)`. -/
def sys_fstat (fd : Nat) (w : World) : Except Errno Stat × World :=
  match tick w with
  | (some e, w1) => (.error e, record w1 (Event.fstat fd))
  | (none, w1) =>
    let w2 := record w1 (Event.fstat fd)
    match w2.fds.lookup fd with
    | none => (.error Errno.EBADF, w2)
    | some id =>
      match w2.nodes.lookup id with
      | none => (.error Errno.EBADF, w2)
      | some n => (.ok n.st, w2)

/-- The call `close (fd)`; its result is never read by `utils.c`.  The
descriptor is released whatever the result. -/
def sys_close (fd : Nat) (w : World) : World :=
  let w1 := (tick w).2
  { record w1 (Event.close fd) with fds := w1.fds.filter (fun e => e.1 ≠ fd) }

/-- The call `ftruncate (fd, len)`: 0 on success, -1 on failure. -/
def sys_ftruncate (fd : Nat) (len : Nat) (w : World) : Int × World :=
  match tick w with
  | (some _, w1) => (-1, record w1 (Event.ftruncate fd len))
  | (none, w1) =>
    let w2 := record w1 (Event.ftruncate fd len)
    match w2.fds.lookup fd with
    | none => (-1, w2)
    | some id =>
      match w2.nodes.lookup id with
      | none => (-1, w2)
      | some n =>
        (0, set_node w2 id
          { n with data := n.data.take len ++ List.replicate (len - n.data.length) NUL })

/-- The call `unlink (path)`; its result is never read by `utils.c`. -/
def sys_unlink (path : String) (w : World) : World :=
  match tick w with
  | (some _, w1) => record w1 (Event.unlink path)
  | (none, w1) =>
    let w2 := record w1 (Event.unlink path)
    match w2.names.lookup path with
    | none => w2
    | some id =>
      let w3 := { w2 with names := w2.names.filter (fun e => e.1 ≠ path) }
      match w3.nodes.lookup id with
      | none => w3
      | some n => set_node w3 id { n with st := { n.st with st_nlink := n.st.st_nlink - 1 } }

/-- The call `write (fd, data, n)` at file position 0, where every descriptor
written by `utils.c` stands: it is written once, right after it was opened.
The result is the number of bytes written, or -1. -/
def sys_write (fd : Nat) (data : List Char) (w : World) : Int × World :=
  match tick w with
  | (some _, w1) => (-1, record w1 (Event.write fd data))
  | (none, w1) =>
    let w2 := record w1 (Event.write fd data)
    match w2.fds.lookup fd with
    | none => (-1, w2)
    | some id =>
      match w2.nodes.lookup id with
      | none => (-1, w2)
      | some n =>
        (data.length, set_node w2 id { n with data := data ++ n.data.drop data.length })

/-- A stdio stream: its descriptor and the bytes not yet flushed. -/
structure FILE where
  fd : Nat
  buf : List Char
deriving DecidableEq, Repr

/-- The call `fdopen (fildes, "w")`: `none` is the `NULL` result. -/
def fdopen (fildes : Int) (w : World) : Option FILE × World :=
  match tick w with
  | (some _, w1) => (none, record w1 (Event.fdopen fildes.toNat))
  | (none, w1) =>
    let w2 := record w1 (Event.fdopen fildes.toNat)
    match w2.fds.lookup fildes.toNat with
    | none => (none, w2)
    | some _ => (some { fd := fildes.toNat, buf := [] }, w2)

/-- The call `fprintf (stream, ...)` with the formatted text: the bytes go to
the buffer of the stream. -/
def fprintf (stream : FILE) (text : List Char) : FILE :=
  { stream with buf := stream.buf ++ text }

/-- The call `fclose (stream)`: the buffer is written out, then the
descriptor is closed.  The result is never read by `utils.c`. -/
def fclose (stream : FILE) (w : World) : World :=
  sys_close stream.fd (sys_write stream.fd stream.buf w).2

/-- Modelled from the spec: `log_message` of `log.c`, "a log sink accepting
(severity, formatted message)"; the message is recorded in the trace. -/
def log_message (w : World) (msg : String) : World := record w (Event.log msg)

/-- The call `getpid ()`. -/
def getpid (w : World) : Int := w.pid

/-- How a function that may call `exit` ends. -/
inductive Outcome where
  | returned
  | exited (status : Int)
deriving DecidableEq, Repr

/-- The part of `create_file_safely` after the `lstat`, given its result. -/
def create_file_safely_after_lstat (cfg : Config) (filename : String)
    (res : Except Errno Stat) (w1 : World) : Int × World :=
  match res with
  | .error e =>
    if e ≠ Errno.ENOENT then
      (-1, log_message w1 "create_file_safely: Error checking PID file")
    else
      match sys_open filename (O_RDWR ||| O_CREAT ||| O_EXCL) (some 0o600) w1 with
      | (.error _, w2) =>
        (-1, log_message w2 "create_file_safely: Could not create PID file")
      | (.ok fildes, w2) => ((fildes : Int), w2)
  | .ok lstatinfo =>
    match sys_open filename O_RDWR none w1 with
    | (.error _, w2) => (-1, log_message w2 "create_file_safely: Could not open PID file")
    | (.ok fildes, w2) =>
      match sys_fstat fildes w2 with
      | (.error _, w3) =>
        (-1, sys_close fildes (log_message w3
          "create_file_safely: The PID file has been changed before it could be opened"))
      | (.ok fstatinfo, w3) =>
        if lstatinfo.st_mode ≠ fstatinfo.st_mode
            ∨ lstatinfo.st_ino ≠ fstatinfo.st_ino
            ∨ lstatinfo.st_dev ≠ fstatinfo.st_dev then
          (-1, sys_close fildes (log_message w3
            "create_file_safely: The PID file has been changed before it could be opened"))
        else if fstatinfo.st_nlink > 1 ∨ S_ISREG lstatinfo.st_mode = false then
          (-1, sys_close fildes (log_message w3
            "create_file_safely: The PID file has too many links, or is not a regular file"))
        else if cfg.HAVE_FTRUNCATE then
          ((fildes : Int), (sys_ftruncate fildes 0 w3).2)
        else
          let w4 := sys_close fildes w3
          match sys_open filename (O_RDWR ||| O_CREAT ||| O_TRUNC) (some 0o600) w4 with
          | (.error _, w5) =>
            (-1, log_message w5 "create_file_safely: Could not open PID file")
          | (.ok fildes2, w5) => ((fildes2 : Int), w5)

/-- The function `create_file_safely` of `utils.c`. -/
def create_file_safely (cfg : Config) (filename : String) (w : World) : Int × World :=
  match sys_lstat filename w with
  | (res, w1) => create_file_safely_after_lstat cfg filename res w1

/-- The function `pidfile_create` of `utils.c`. -/
def pidfile_create (cfg : Config) (filename : String) (w : World) : Outcome × World :=
  match create_file_safely cfg filename w with
  | (fildes, w1) =>
    if fildes < 0 then (Outcome.exited 1, w1)
    else
      match fdopen fildes w1 with
      | (none, w2) =>
        let w3 := log_message w2 "pidfile_create: fdopen() error on PID file"
        let w4 := sys_close fildes.toNat w3
        let w5 := sys_unlink filename w4
        (Outcome.exited 1, w5)
      | (some fd, w2) =>
        let fd1 := fprintf fd (fmt_d (getpid w2) ++ "\n".toList)
        (Outcome.returned, fclose fd1 w2)

/-- The object behind a descriptor. -/
def file_of_fd (w : World) (fd : Nat) : Option Node :=
  match w.fds.lookup fd with
  | none => none
  | some id => w.nodes.lookup id

/-- The object a path leads to, symbolic links followed. -/
def file_at (w : World) (path : String) : Option Node :=
  match resolve w 8 path with
  | .ok (_, some (_, n)) => some n
  | _ => none

/-- The PID file used in the examples. -/
def pidfile : String := "/var/run/tinyproxy.pid"

/-- A regular file with one link. -/
def reg_file (ino : Nat) (data : List Char) : Node :=
  { st := { st_dev := 1, st_ino := ino, st_mode := S_IFREG ||| 0o600, st_nlink := 1 },
    data := data, target := none }

/-- A world whose only file is the PID file of an earlier run, the rest of
the system being quiet. -/
def ex_world : World :=
  { nodes := [(10, reg_file 10 "123456\n".toList)], names := [(pidfile, 10)], fds := [],
    script := [], trace := [], pid := 4242 }

/-- A world without the PID file, the rest of the system being quiet. -/
def ex_empty : World :=
  { nodes := [], names := [], fds := [], script := [], trace := [], pid := 4242 }

/-- A sensitive file used in the examples. -/
def passwd : String := "/etc/passwd"

/-- A world where the PID file path is a second hard link to the sensitive
file. -/
def ex_hardlink : World :=
  { nodes := [(20, { st := { st_dev := 1, st_ino := 20, st_mode := S_IFREG ||| 0o644,
                             st_nlink := 2 },
                     data := "root:x:0:0\n".toList, target := none })],
    names := [(pidfile, 20), (passwd, 20)], fds := [], script := [], trace := [],
    pid := 4242 }

/-- A symbolic link to the sensitive file. -/
def link_to_passwd : Node :=
  { st := { st_dev := 1, st_ino := 11, st_mode := S_IFLNK ||| 0o777, st_nlink := 1 },
    data := [], target := some passwd }

/-- A world where another process replaces the PID file by a symbolic link
to the sensitive file after the `lstat` and before the `open`. -/
def ex_swap : World :=
  { nodes := [(10, reg_file 10 "123456\n".toList), (20, reg_file 20 "root:x:0:0\n".toList)],
    names := [(pidfile, 10), (passwd, 20)], fds := [],
    script := [{ acts := [], fault := none },
               { acts := [Act.put 11 link_to_passwd, Act.bind pidfile 11], fault := none }],
    trace := [], pid := 4242 }

/-- The flags of the exclusive create in `create_file_safely`. -/
def EXCL_FLAGS : Nat := O_RDWR ||| O_CREAT ||| O_EXCL

/-- No other process changes the file system during the coming calls. -/
def undisturbed (w : World) : Prop := ∀ s ∈ w.script, s.acts = []

/-- A world without the PID file in which the directory cannot be written:
each `open` fails with `EACCES`. -/
def ex_denied : World :=
  { nodes := [], names := [], fds := [],
    script := [{ acts := [], fault := none }, { acts := [], fault := none },
               { acts := [], fault := some Errno.EACCES },
               { acts := [], fault := some Errno.EACCES }],
    trace := [], pid := 4242 }

/-- A world without the PID file where another process creates it after the
`lstat` and before the `open`. -/
def ex_race : World :=
  { nodes := [], names := [], fds := [],
    script := [{ acts := [], fault := none },
               { acts := [Act.put 30 (reg_file 30 "777\n".toList), Act.bind pidfile 30],
                 fault := none }],
    trace := [], pid := 4242 }

/-- The world `ex_world` where the fourth call, the `ftruncate`, fails with
`EIO`. -/
def ex_ftruncate_fails : World :=
  { ex_world with
    script := [{ acts := [], fault := none }, { acts := [], fault := none },
               { acts := [], fault := none }, { acts := [], fault := some Errno.EIO }] }

/-- The world `ex_empty` where the fourth call, the `write` that flushes the
stream, fails with `ENOSPC`. -/
def ex_write_fails : World :=
  { ex_empty with
    script := [{ acts := [], fault := none }, { acts := [], fault := none },
               { acts := [], fault := none }, { acts := [], fault := some Errno.ENOSPC }] }

/-- The world `ex_world` where the sixth call, the `write` that flushes the
stream, fails with `ENOSPC`. -/
def ex_write_fails_old : World :=
  { ex_world with
    script := [{ acts := [], fault := none }, { acts := [], fault := none },
               { acts := [], fault := none }, { acts := [], fault := none },
               { acts := [], fault := none }, { acts := [], fault := some Errno.ENOSPC }] }

/-- The descriptor `fd` and the path both lead to the object `n`. -/
def holds_file (w : World) (path : String) (fd : Nat) (n : Node) : Prop :=
  ∃ id q, w.fds.lookup fd = some id ∧ resolve w 8 path = .ok (q, some (id, n))

/-! # Theorems -/

/-! ### Lemmas on the primitives -/

theorem strlen_eq_some_iff (s : List Char) (n : Nat) :
    strlen s = some n ↔
      ∃ body rest, s = body ++ NUL :: rest ∧ body.length = n ∧ NUL ∉ body := by
  induction s generalizing n with
  | nil => simp [strlen]
  | cons c cs ih =>
    by_cases hc : c = NUL
    · subst hc
      simp only [strlen, if_true, Option.some.injEq]
      constructor
      · intro h; subst h; exact ⟨[], cs, rfl, rfl, by simp⟩
      · rintro ⟨body, rest, h1, h2, h3⟩
        cases body with
        | nil => simpa using h2
        | cons b bs =>
          simp only [List.cons_append, List.cons.injEq] at h1
          exact absurd (h1.1 ▸ List.mem_cons_self _ _) h3
    · simp only [strlen, hc, if_false, Option.map_eq_some']
      constructor
      · rintro ⟨m, hm, rfl⟩
        obtain ⟨body, rest, h1, h2, h3⟩ := (ih m).1 hm
        refine ⟨c :: body, rest, by simp [h1], by simp [h2], ?_⟩
        simp only [List.mem_cons, not_or]
        exact ⟨fun h => hc h.symm, h3⟩
      · rintro ⟨body, rest, h1, h2, h3⟩
        cases body with
        | nil =>
          simp only [List.nil_append, List.cons.injEq] at h1
          exact absurd h1.1 hc
        | cons b bs =>
          simp only [List.cons_append, List.cons.injEq] at h1
          simp only [List.mem_cons, not_or] at h3
          refine ⟨bs.length, (ih _).2 ⟨bs, rest, h1.2, rfl, h3.2⟩, ?_⟩
          simpa using h2

theorem strlen_append_nul (body rest : List Char) (h : NUL ∉ body) :
    strlen (body ++ NUL :: rest) = some body.length :=
  (strlen_eq_some_iff _ _).2 ⟨body, rest, rfl, rfl, h⟩

theorem cstr_append_nul (body rest : List Char) (h : NUL ∉ body) :
    cstr (body ++ NUL :: rest) = body := by
  induction body with
  | nil => simp [cstr]
  | cons b bs ih =>
    simp only [List.mem_cons, not_or] at h
    have hb : b ≠ NUL := fun e => h.1 e.symm
    have := ih h.2
    simp only [cstr] at this ⊢
    simpa [List.takeWhile, hb] using this

theorem not_mem_take {body : List Char} (h : NUL ∉ body) (k : Nat) :
    NUL ∉ body.take k := fun hm => h (List.mem_of_mem_take hm)

theorem size_sub_one {size : Nat} (h1 : 1 ≤ size) (h2 : size < SIZE_MOD) :
    size_sub size 1 = size - 1 := by
  unfold size_sub SIZE_MOD at *
  omega

theorem take_body_append (body rest : List Char) (k : Nat) (hk : k ≤ body.length) :
    (body ++ NUL :: rest).take k = body.take k := by
  rw [List.take_append_of_le_length hk]

/-- The result of `strlcpy` in closed form. -/
theorem strlcpy_eq (dst src : List Char) (size n : Nat)
    (hsize : 1 ≤ size) (hcap : size ≤ dst.length) (hmax : size < SIZE_MOD)
    (hsrc : strlen src = some n) :
    strlcpy dst src size =
      some (src.take (min n (size - 1)) ++ NUL :: dst.drop (min n (size - 1) + 1), n) := by
  obtain ⟨body, rest, rfl, rfl, h3⟩ := (strlen_eq_some_iff _ _).1 hsrc
  have hlen : (if body.length ≥ size then size_sub size 1 else body.length)
      = min body.length (size - 1) := by
    rw [size_sub_one hsize hmax]
    split <;> omega
  simp only [strlcpy, hsrc, hlen]
  set k := min body.length (size - 1) with hk
  have hk1 : k ≤ body.length := by omega
  have hk2 : k < dst.length := by omega
  have hm : memcpy dst 0 (body ++ NUL :: rest) k
      = some ((body ++ NUL :: rest).take k ++ dst.drop k) := by
    simp only [memcpy, List.length_append, List.length_cons, List.take_zero, List.nil_append,
      Nat.zero_add]
    rw [if_pos]
    constructor <;> omega
  rw [hm]
  have hl : ((body ++ NUL :: rest).take k).length = k := by
    rw [List.length_take]; simp; omega
  have hs : store ((body ++ NUL :: rest).take k ++ dst.drop k) k NUL
      = some ((body ++ NUL :: rest).take k ++ NUL :: dst.drop (k + 1)) := by
    simp only [store, List.length_append, hl, List.length_drop]
    rw [if_pos (by omega)]
    congr 1
    rw [List.set_append_right _ _ (by omega), hl, Nat.sub_self]
    cases hd : dst.drop k with
    | nil =>
      have := congrArg List.length hd
      simp at this; omega
    | cons x xs =>
      simp only [List.set_cons_zero, List.cons.injEq, true_and, List.append_cancel_left_eq]
      have : dst.drop (k + 1) = (dst.drop k).drop 1 := by rw [List.drop_drop]
      rw [this, hd]; rfl
  simp only [hs]
/-- C7. Bounded copy: with a capacity `size ≥ 1` inside the destination
object and a terminated source of length `n`, `strlcpy` is defined, returns
the full source length `n`, leaves the destination holding exactly the first
`min n (size - 1)` bytes of the source followed by a terminator, and the copy
is truncated exactly when the returned value is at least `size`. -/
theorem strlcpy_bounded_copy (dst src : List Char) (size n : Nat)
    (hsize : 1 ≤ size) (hcap : size ≤ dst.length) (hmax : size < SIZE_MOD)
    (hsrc : strlen src = some n) :
    ∃ dst1, strlcpy dst src size = some (dst1, n) ∧
      cstr dst1 = src.take (min n (size - 1)) ∧
      strlen dst1 = some (min n (size - 1)) ∧
      min n (size - 1) < size ∧
      dst1.length = dst.length ∧
      (cstr dst1 ≠ cstr src ↔ size ≤ n) := by
  refine ⟨_, strlcpy_eq dst src size n hsize hcap hmax hsrc, ?_⟩
  obtain ⟨body, rest, rfl, rfl, h3⟩ := (strlen_eq_some_iff _ _).1 hsrc
  set k := min body.length (size - 1) with hk
  have hk1 : k ≤ body.length := by omega
  have htake : (body ++ NUL :: rest).take k = body.take k := take_body_append _ _ _ hk1
  have hnot : NUL ∉ body.take k := not_mem_take h3 k
  have hlk : (body.take k).length = k := by rw [List.length_take]; omega
  rw [htake]
  refine ⟨cstr_append_nul _ _ hnot, ?_, by omega, ?_, ?_⟩
  · rw [strlen_append_nul _ _ hnot, hlk]
  · simp only [List.length_append, List.length_cons, hlk, List.length_drop]
    omega
  · rw [cstr_append_nul _ _ hnot, cstr_append_nul _ _ h3]
    constructor
    · intro hne
      by_contra hlt
      have : k = body.length := by omega
      rw [this, List.take_length] at hne
      exact hne rfl
    · intro hle heq
      have := congrArg List.length heq
      rw [hlk] at this
      omega

/-- C7, the witness of the specification: capacity 5 and "hello world". -/
theorem strlcpy_bounded_copy_witness :
    strlcpy (List.replicate 5 'x') "hello world\x00".toList 5
        = some ("hell\x00".toList, 11) ∧
    ∃ dst1, strlcpy (List.replicate 5 'x') "hello world\x00".toList 5 = some (dst1, 11) ∧
      cstr dst1 = "hello world\x00".toList.take (min 11 (5 - 1)) ∧
      strlen dst1 = some (min 11 (5 - 1)) ∧
      min 11 (5 - 1) < 5 ∧
      dst1.length = (List.replicate 5 'x').length ∧
      (cstr dst1 ≠ cstr "hello world\x00".toList ↔ 5 ≤ 11) :=
  ⟨by decide,
   strlcpy_bounded_copy (List.replicate 5 'x') "hello world\x00".toList 5 11
     (by decide) (by decide) (by decide) (by decide)⟩

/-! ### `strlcat` -/

theorem size_sub_sub_one {size len1 : Nat} (h1 : len1 + 1 ≤ size) (h2 : size < SIZE_MOD) :
    size_sub (size_sub size len1) 1 = size - len1 - 1 := by
  unfold size_sub SIZE_MOD at *
  have e1 : len1 % 2 ^ 64 = len1 := Nat.mod_eq_of_lt (by omega)
  rw [e1]
  have e2 : (size + 2 ^ 64 - len1) % 2 ^ 64 = size - len1 := by
    have : size + 2 ^ 64 - len1 = (size - len1) + 2 ^ 64 := by omega
    rw [this, Nat.add_mod_right]
    exact Nat.mod_eq_of_lt (by omega)
  rw [e2]
  have : size - len1 + 2 ^ 64 - 1 % 2 ^ 64 = (size - len1 - 1) + 2 ^ 64 := by
    have : 1 % 2 ^ 64 = 1 := by decide
    omega
  rw [this, Nat.add_mod_right]
  exact Nat.mod_eq_of_lt (by omega)

theorem memcpy_eq (dst src : List Char) (off k : Nat)
    (hk : k ≤ src.length) (hd : off + k ≤ dst.length) :
    memcpy dst off src k = some (dst.take off ++ src.take k ++ dst.drop (off + k)) := by
  simp only [memcpy]
  rw [if_pos ⟨hk, hd⟩]

theorem store_after_prefix (pre tail : List Char) (c : Char) (h : 0 < tail.length) :
    store (pre ++ tail) pre.length c = some (pre ++ c :: tail.drop 1) := by
  simp only [store, List.length_append]
  rw [if_pos (by omega)]
  congr 1
  rw [List.set_append_right _ _ (le_refl _), Nat.sub_self]
  cases tail with
  | nil => simp at h
  | cons x xs => simp

/-- The result of `strlcat` in closed form when the existing content leaves
room for its terminator inside the capacity. -/
theorem strlcat_eq (dst src : List Char) (size len1 len2 : Nat)
    (hcap : size ≤ dst.length) (hmax : size < SIZE_MOD)
    (hdst : strlen dst = some len1) (hfit : len1 + 1 ≤ size)
    (hsrc : strlen src = some len2) (hsum : len1 + len2 < SIZE_MOD) :
    strlcat dst src size =
      some (if 0 < min len2 (size - 1 - len1) then
              dst.take len1 ++ src.take (min len2 (size - 1 - len1)) ++
                NUL :: dst.drop (len1 + min len2 (size - 1 - len1) + 1)
            else dst, len1 + len2) := by
  have hadd : size_add len1 len2 = len1 + len2 := Nat.mod_eq_of_lt hsum
  have hlen : (if len1 + len2 ≥ size then size_sub (size_sub size len1) 1 else len2)
      = min len2 (size - 1 - len1) := by
    rw [size_sub_sub_one hfit hmax]
    split <;> omega
  simp only [strlcat, hdst, hsrc, hadd, hlen, gt_iff_lt]
  set k := min len2 (size - 1 - len1) with hk
  by_cases hpos : 0 < k
  · have hsl : len2 < src.length := by
      obtain ⟨body, rest, rfl, rfl, -⟩ := (strlen_eq_some_iff _ _).1 hsrc
      simp
    rw [if_pos hpos, if_pos hpos, memcpy_eq dst src len1 k (by omega) (by omega)]
    have hpl : (dst.take len1 ++ src.take k).length = len1 + k := by
      simp only [List.length_append, List.length_take]
      omega
    have hst := store_after_prefix (dst.take len1 ++ src.take k) (dst.drop (len1 + k)) NUL
      (by rw [List.length_drop]; omega)
    rw [hpl] at hst
    simp only [hst, List.drop_drop]
  · rw [if_neg hpos, if_neg hpos]
/-- C8 (as amended). Bounded append: when the existing content has length at
most `size - 1`, `strlcat` is defined, returns the combined length, leaves the
destination terminated inside its first `size` bytes and holding the existing
content followed by the longest prefix of the source that keeps the total
length at most `size - 1`; when the existing content has length exactly
`size - 1` the destination is unchanged. -/
theorem strlcat_bounded_append (dst src : List Char) (size len1 len2 : Nat)
    (hcap : size ≤ dst.length) (hmax : size < SIZE_MOD)
    (hdst : strlen dst = some len1) (hfit : len1 + 1 ≤ size)
    (hsrc : strlen src = some len2) (hsum : len1 + len2 < SIZE_MOD) :
    ∃ dst1, strlcat dst src size = some (dst1, len1 + len2) ∧
      cstr dst1 = cstr dst ++ src.take (min len2 (size - 1 - len1)) ∧
      strlen dst1 = some (len1 + min len2 (size - 1 - len1)) ∧
      len1 + min len2 (size - 1 - len1) < size ∧
      (∀ j, j ≤ len2 → len1 + j ≤ size - 1 → j ≤ min len2 (size - 1 - len1)) ∧
      dst1.length = dst.length ∧
      (len1 = size - 1 → dst1 = dst) := by
  refine ⟨_, strlcat_eq dst src size len1 len2 hcap hmax hdst hfit hsrc hsum, ?_⟩
  obtain ⟨b1, r1, rfl, rfl, hn1⟩ := (strlen_eq_some_iff _ _).1 hdst
  obtain ⟨b2, r2, rfl, rfl, hn2⟩ := (strlen_eq_some_iff _ _).1 hsrc
  set k := min b2.length (size - 1 - b1.length) with hk
  have hk2 : k ≤ b2.length := by omega
  have htake2 : (b2 ++ NUL :: r2).take k = b2.take k := take_body_append _ _ _ hk2
  have htake1 : (b1 ++ NUL :: r1).take b1.length = b1 := by
    rw [take_body_append _ _ _ (le_refl _), List.take_length]
  have hlk : (b2.take k).length = k := by rw [List.length_take]; omega
  simp only [List.length_append, List.length_cons] at hcap
  by_cases hpos : 0 < k
  · rw [if_pos hpos, htake1, htake2, cstr_append_nul _ _ hn1]
    have hnot : NUL ∉ b1 ++ b2.take k := by
      simp only [List.mem_append, not_or]
      exact ⟨hn1, not_mem_take hn2 k⟩
    refine ⟨cstr_append_nul _ _ hnot, ?_, by omega, fun j h1 h2 => by omega, ?_, ?_⟩
    · rw [strlen_append_nul _ _ hnot, List.length_append, hlk]
    · simp only [List.length_append, List.length_cons, hlk, List.length_drop]
      omega
    · intro h; omega
  · rw [if_neg hpos]
    have hk0 : k = 0 := by omega
    rw [htake2, hk0, List.take_zero, List.append_nil, Nat.add_zero]
    exact ⟨rfl, hdst, by omega, fun j h1 h2 => by omega, rfl, fun _ => rfl⟩

/-- C8, an instance of the amended statement: capacity 6, existing content
"ab", source "cdefgh". -/
theorem strlcat_bounded_append_witness :
    strlcat "ab\x00xxx".toList "cdefgh\x00".toList 6 = some ("abcde\x00".toList, 8) ∧
    ∃ dst1, strlcat "ab\x00xxx".toList "cdefgh\x00".toList 6 = some (dst1, 2 + 6) ∧
      cstr dst1 = cstr "ab\x00xxx".toList ++ "cdefgh\x00".toList.take (min 6 (6 - 1 - 2)) ∧
      strlen dst1 = some (2 + min 6 (6 - 1 - 2)) ∧
      2 + min 6 (6 - 1 - 2) < 6 ∧
      (∀ j, j ≤ 6 → 2 + j ≤ 6 - 1 → j ≤ min 6 (6 - 1 - 2)) ∧
      dst1.length = "ab\x00xxx".toList.length ∧
      (2 = 6 - 1 → dst1 = "ab\x00xxx".toList) :=
  ⟨by decide,
   strlcat_bounded_append "ab\x00xxx".toList "cdefgh\x00".toList 6 2 6
     (by decide) (by decide) (by decide) (by decide) (by decide) (by decide)⟩

/-- C8, the claim as stated fails: existing content "ab" (length 2, which is
`size - 1` or more for `size = 2`) and source "c".  The claim promises an
unchanged destination and the return value 3; the call is undefined. -/
theorem strlcat_overfull_counterexample :
    strlen "ab\x00".toList = some 2 ∧ 2 ≥ 2 - 1 ∧ strlen "c\x00".toList = some 1 ∧
    strlcat "ab\x00".toList "c\x00".toList 2 ≠ some ("ab\x00".toList, 3) ∧
    strlcat "ab\x00".toList "c\x00".toList 2 = none := by
  refine ⟨by decide, by decide, by decide, by decide, by decide⟩
/-! ### Decimal numerals -/

/-- One step of `parse_digits`. -/
theorem digitChar_spec : ∀ k, k < 10 →
    (Nat.digitChar k).isDigit = true ∧ (Nat.digitChar k).toNat - 48 = k ∧
      Nat.digitChar k ≠ '-' := by
  decide

theorem foldl_toDigitsCore (f : Option Nat → Char → Option Nat)
    (hf : ∀ v k, k < 10 → f (some v) (Nat.digitChar k) = some (10 * v + k)) :
    ∀ (fuel n : Nat) (ds : List Char), n < fuel →
      (Nat.toDigitsCore 10 fuel n ds).foldl f (some 0) = ds.foldl f (some n) := by
  intro fuel
  induction fuel with
  | zero => intro n ds h; omega
  | succ fuel ih =>
    intro n ds h
    simp only [Nat.toDigitsCore]
    split
    · rename_i h0
      have hn : n % 10 = n := by omega
      rw [List.foldl_cons, hf 0 _ (Nat.mod_lt _ (by decide)), hn]
      simp
    · rename_i h0
      rw [ih (n / 10) _ (by omega), List.foldl_cons, hf _ _ (Nat.mod_lt _ (by decide))]
      congr 2
      omega

theorem toDigitsCore_ne_nil (fuel n : Nat) (d : Char) (ds : List Char) :
    Nat.toDigitsCore 10 fuel n (d :: ds) ≠ [] := by
  induction fuel generalizing n d ds with
  | zero => simp [Nat.toDigitsCore]
  | succ fuel ih =>
    simp only [Nat.toDigitsCore]
    split
    · simp
    · exact ih _ _ _

theorem toDigits_ne_nil (n : Nat) : Nat.toDigits 10 n ≠ [] := by
  simp only [Nat.toDigits, Nat.toDigitsCore]
  split
  · simp
  · exact toDigitsCore_ne_nil _ _ _ _

theorem toDigitsCore_not_mem (c : Char) (hc : ∀ k, k < 10 → Nat.digitChar k ≠ c)
    (fuel n : Nat) (ds : List Char) (h : c ∉ ds) :
    c ∉ Nat.toDigitsCore 10 fuel n ds := by
  induction fuel generalizing n ds with
  | zero => simpa [Nat.toDigitsCore] using h
  | succ fuel ih =>
    have hd : c ∉ Nat.digitChar (n % 10) :: ds := by
      simp only [List.mem_cons, not_or]
      exact ⟨fun e => hc _ (Nat.mod_lt _ (by decide)) e.symm, h⟩
    simp only [Nat.toDigitsCore]
    split
    · exact hd
    · exact ih _ _ hd

theorem toDigits_no_minus (n : Nat) : '-' ∉ Nat.toDigits 10 n :=
  toDigitsCore_not_mem '-' (fun k hk => (digitChar_spec k hk).2.2) _ _ _ (by simp)

theorem fmt_d_no_newline (i : Int) : '\n' ∉ fmt_d i := by
  have hc : ∀ k, k < 10 → Nat.digitChar k ≠ '\n' := by decide
  cases i with
  | ofNat n => exact toDigitsCore_not_mem _ hc _ _ _ (by simp)
  | negSucc n =>
    simp only [fmt_d, List.mem_cons, not_or]
    exact ⟨by decide, toDigitsCore_not_mem _ hc _ _ _ (by simp)⟩

/-- Reading back the numeral of a natural number. -/
theorem parse_digits_toDigits (n : Nat) : parse_digits (Nat.toDigits 10 n) = some n := by
  have hne := toDigits_ne_nil n
  have key := foldl_toDigitsCore
    (fun acc c => match acc with
      | none => none
      | some v => if c.isDigit then some (10 * v + (c.toNat - 48)) else none)
    (by
      intro v k hk
      obtain ⟨h1, h2, -⟩ := digitChar_spec k hk
      simp [h1, h2])
    (n + 1) n [] (by omega)
  cases hds : Nat.toDigits 10 n with
  | nil => exact absurd hds hne
  | cons c cs =>
    simp only [parse_digits]
    rw [← hds]
    simpa [Nat.toDigits] using key

/-- Reading back what `%d` prints. -/
theorem parse_int_fmt_d (i : Int) : parse_int (fmt_d i) = some i := by
  cases i with
  | ofNat n =>
    have hm := toDigits_no_minus n
    have hp := parse_digits_toDigits n
    simp only [fmt_d]
    cases hds : Nat.toDigits 10 n with
    | nil => exact absurd hds (toDigits_ne_nil n)
    | cons c cs =>
      rw [hds] at hm hp
      have hc : c ≠ '-' := by
        intro e; subst e; exact hm (List.mem_cons_self _ _)
      unfold parse_int
      split
      · rename_i heq
        simp only [List.cons.injEq] at heq
        exact absurd heq.1 hc
      · simp [hp]
  | negSucc n =>
    simp only [fmt_d, parse_int, parse_digits_toDigits, Option.map_some', Option.some.injEq]
    rfl
/-! ### The HTTP error response -/

theorem safemalloc_date (s : Net) : (safemalloc s).2.date = s.date := by
  unfold safemalloc
  split <;> rfl

theorem safemalloc_writes (s : Net) : (safemalloc s).2.writes = s.writes := by
  unfold safemalloc
  split <;> rfl

theorem snprintf_fits {n : Nat} {text : List Char} (h : text.length ≤ n - 1) :
    snprintf n text = text := by
  unfold snprintf
  exact List.take_of_length_le h

theorem snprintf_length_le (n : Nat) (text : List Char) : (snprintf n text).length ≤ n - 1 := by
  unfold snprintf
  rw [List.length_take]
  exact Nat.min_le_left _ _

theorem int_of_size_small {n : Nat} (h : n < 2 ^ 31) : int_of_size n = Int.ofNat n := by
  unfold int_of_size
  have : n % 2 ^ 32 = n := Nat.mod_eq_of_lt (by omega)
  rw [this, if_pos h]

/-- What a successful `send_http_message` does: two writes, the truncated
preamble and then the whole message. -/
theorem send_http_message_eq (cfg : Config) (s : Net) (connptr : conn_s) (http_code : Int)
    (error_title message : List Char)
    (hok : (send_http_message cfg s connptr http_code error_title message).1 = 0) :
    send_http_message cfg s connptr http_code error_title message =
      (0, { connptr with send_message := true },
        { (safemalloc s).2 with
          writes := s.writes ++
            [(connptr.client_fd, snprintf (HEADER_SIZE - 1)
                (headers_fmt http_code error_title cfg.PACKAGE cfg.VERSION s.date
                  (int_of_size message.length))),
             (connptr.client_fd, message)] }) := by
  unfold send_http_message at hok ⊢
  have hd := safemalloc_date s
  have hw := safemalloc_writes s
  rcases hsm : safemalloc s with ⟨ok, s1⟩
  rw [hsm] at hok hd hw
  simp only at hd hw
  cases ok with
  | false => simp at hok
  | true =>
    simp only [safe_write, List.take_length, hd, hw, List.append_assoc, List.singleton_append]

/-- A successful `httperr` is the call of `send_http_message` on the
truncated body. -/
theorem httperr_eq (cfg : Config) (s : Net) (connptr : conn_s) (err : Int) (msg : List Char)
    (hok : (httperr cfg s connptr err msg).1 = 0) :
    (safemalloc s).1 = true ∧
    httperr cfg s connptr err msg =
      send_http_message cfg (safemalloc s).2 connptr err msg
        (snprintf (cfg.MAXBUFFSIZE - 1) (message_fmt msg err cfg.PACKAGE cfg.VERSION)) ∧
    (send_http_message cfg (safemalloc s).2 connptr err msg
        (snprintf (cfg.MAXBUFFSIZE - 1) (message_fmt msg err cfg.PACKAGE cfg.VERSION))).1 = 0 := by
  unfold httperr at hok ⊢
  rcases hsm : safemalloc s with ⟨ok, s1⟩
  rw [hsm] at hok
  cases ok with
  | false => simp at hok
  | true =>
    simp only at hok ⊢
    rcases hsend : send_http_message cfg s1 connptr err msg
      (snprintf (cfg.MAXBUFFSIZE - 1) (message_fmt msg err cfg.PACKAGE cfg.VERSION)) with ⟨r, c, s2⟩
    rw [hsend] at hok
    simp only at hok ⊢
    have hr : r = 0 ∨ r = -1 := by
      have := congrArg (fun x => x.1) hsend
      simp only [send_http_message] at this
      split at this <;> simp at this <;> omega
    rcases hr with rfl | rfl
    · simp
    · simp at hok
theorem headers_fmt_split (http_code : Int) (title pkg ver date : List Char) (len : Int) :
    headers_fmt http_code title pkg ver date len =
      ("HTTP/1.0 ".toList ++ fmt_d http_code ++ " ".toList ++ title) ++
      ("\r\n".toList ++
        "Server: ".toList ++ pkg ++ "/".toList ++ ver ++ "\r\n".toList ++
        "Date: ".toList ++ date ++ "\r\n".toList ++
        "Content-Type: text/html".toList) ++
      ("\r\nContent-Length: ".toList ++ fmt_d len ++ "\r\n".toList) ++
      "Connection: close\r\n\r\n".toList := by
  simp [headers_fmt, List.append_assoc]

/-- C6 (as amended). When the formatted preamble fits the header buffer
(`HEADER_SIZE - 2` bytes) and the body is shorter than `2 ^ 31` bytes, a
successful `send_http_message` writes a preamble holding the header line
`Content-Length: n` where `n`, read back as a decimal numeral, is the number
of bytes of the body written second; and `httperr` is such a call, with the
HTML body it formatted as the message. -/
theorem content_length_exact (cfg : Config) (s : Net) (connptr : conn_s) (http_code : Int)
    (error_title message : List Char)
    (hok : (send_http_message cfg s connptr http_code error_title message).1 = 0)
    (hfit : (headers_fmt http_code error_title cfg.PACKAGE cfg.VERSION s.date
        (int_of_size message.length)).length ≤ HEADER_SIZE - 2)
    (hint : message.length < 2 ^ 31) :
    (∃ pre, (send_http_message cfg s connptr http_code error_title message).2.2.writes =
        s.writes ++ [(connptr.client_fd, pre), (connptr.client_fd, message)] ∧
      ("\r\nContent-Length: ".toList ++ Nat.toDigits 10 message.length ++ "\r\n".toList)
        <:+: pre ∧
      parse_digits (Nat.toDigits 10 message.length) = some message.length) ∧
    (∀ s0 msg, (httperr cfg s0 connptr http_code msg).1 = 0 → (safemalloc s0).2 = s →
      error_title = msg →
      message = snprintf (cfg.MAXBUFFSIZE - 1)
        (message_fmt msg http_code cfg.PACKAGE cfg.VERSION) →
      httperr cfg s0 connptr http_code msg =
        send_http_message cfg s connptr http_code error_title message) := by
  constructor
  · refine ⟨snprintf (HEADER_SIZE - 1) (headers_fmt http_code error_title cfg.PACKAGE
      cfg.VERSION s.date (int_of_size message.length)), ?_, ?_, parse_digits_toDigits _⟩
    · rw [send_http_message_eq cfg s connptr http_code error_title message hok]
    · rw [snprintf_fits (by simpa [HEADER_SIZE] using hfit), headers_fmt_split,
        int_of_size_small hint]
      exact ⟨_, _, rfl⟩
  · intro s0 msg h0 hs ht hm
    subst hs ht hm
    exact (httperr_eq cfg s0 connptr http_code error_title h0).2.1

/-- C10 (as amended). When the formatted body fits `MAXBUFFSIZE - 2` bytes and
the formatted preamble fits `HEADER_SIZE - 2` bytes, a successful `httperr`
adds exactly two writes on the client descriptor: a preamble beginning with
the status line and CRLF, then a body holding the message as title, the error
sentence with the code and the message, and the attribution line. -/
theorem httperr_shape (cfg : Config) (s : Net) (connptr : conn_s) (err : Int)
    (msg : List Char)
    (hok : (httperr cfg s connptr err msg).1 = 0)
    (hbody : (message_fmt msg err cfg.PACKAGE cfg.VERSION).length ≤ cfg.MAXBUFFSIZE - 2)
    (hhead : (headers_fmt err msg cfg.PACKAGE cfg.VERSION s.date
        (int_of_size (message_fmt msg err cfg.PACKAGE cfg.VERSION).length)).length
          ≤ HEADER_SIZE - 2) :
    ∃ pre body, (httperr cfg s connptr err msg).2.2.writes =
        s.writes ++ [(connptr.client_fd, pre), (connptr.client_fd, body)] ∧
      (httperr cfg s connptr err msg).2.1.send_message = true ∧
      ("HTTP/1.0 ".toList ++ fmt_d err ++ " ".toList ++ msg ++ "\r\n".toList) <+: pre ∧
      ("<title>".toList ++ msg ++ "</title>".toList) <:+: body ∧
      ("An error of type ".toList ++ fmt_d err ++ " occurred: ".toList ++ msg) <:+: body ∧
      ("Generated by ".toList ++ cfg.PACKAGE ++ " (".toList ++ cfg.VERSION ++ ")".toList)
        <:+: body := by
  obtain ⟨-, heq, hsend⟩ := httperr_eq cfg s connptr err msg hok
  have hb : snprintf (cfg.MAXBUFFSIZE - 1) (message_fmt msg err cfg.PACKAGE cfg.VERSION)
      = message_fmt msg err cfg.PACKAGE cfg.VERSION :=
    snprintf_fits (by omega)
  rw [hb] at heq hsend
  rw [heq, send_http_message_eq _ _ _ _ _ _ hsend, safemalloc_date, safemalloc_writes,
    snprintf_fits (by simpa [HEADER_SIZE] using hhead)]
  refine ⟨_, _, rfl, rfl, ?_, ?_, ?_, ?_⟩
  · rw [headers_fmt_split]
    simp only [List.append_assoc]
    refine ⟨?_, ?_⟩
    · exact "Server: ".toList ++ (cfg.PACKAGE ++ ("/".toList ++ (cfg.VERSION ++ ("\r\n".toList ++
        ("Date: ".toList ++ (s.date ++ ("\r\n".toList ++ ("Content-Type: text/html".toList ++
        ("\r\nContent-Length: ".toList ++ (fmt_d (int_of_size
          (message_fmt msg err cfg.PACKAGE cfg.VERSION).length) ++ ("\r\n".toList ++
        "Connection: close\r\n\r\n".toList)))))))))))
    · simp
  · refine ⟨"<html><head>".toList, "</head>\r\n".toList ++
      "<body>\r\n".toList ++
      "<font size=\"+2\">Cache Error!</font><br>\r\n".toList ++
      "An error of type ".toList ++ fmt_d err ++ " occurred: ".toList ++ msg ++ "\r\n".toList ++
      "<hr>\r\n".toList ++
      "<font size=\"-1\"><em>Generated by ".toList ++ cfg.PACKAGE ++ " (".toList ++ cfg.VERSION ++
        ")</em></font>\r\n".toList ++
      "</body></html>\r\n\r\n".toList, ?_⟩
    simp [message_fmt, List.append_assoc]
  · refine ⟨"<html><head><title>".toList ++ msg ++ "</title></head>\r\n".toList ++
      "<body>\r\n".toList ++
      "<font size=\"+2\">Cache Error!</font><br>\r\n".toList, "\r\n".toList ++
      "<hr>\r\n".toList ++
      "<font size=\"-1\"><em>Generated by ".toList ++ cfg.PACKAGE ++ " (".toList ++ cfg.VERSION ++
        ")</em></font>\r\n".toList ++
      "</body></html>\r\n\r\n".toList, ?_⟩
    simp [message_fmt, List.append_assoc]
  · refine ⟨"<html><head><title>".toList ++ msg ++ "</title></head>\r\n".toList ++
      "<body>\r\n".toList ++
      "<font size=\"+2\">Cache Error!</font><br>\r\n".toList ++
      "An error of type ".toList ++ fmt_d err ++ " occurred: ".toList ++ msg ++ "\r\n".toList ++
      "<hr>\r\n".toList ++
      "<font size=\"-1\"><em>".toList, "</em></font>\r\n".toList ++
      "</body></html>\r\n\r\n".toList, ?_⟩
    simp [message_fmt, List.append_assoc]
theorem truncated_preamble (http_code : Int) (title pkg ver date : List Char) (len : Int)
    (h : HEADER_SIZE - 2 ≤ title.length) :
    snprintf (HEADER_SIZE - 1) (headers_fmt http_code title pkg ver date len) =
      ("HTTP/1.0 ".toList ++ fmt_d http_code ++ " ".toList ++ title).take (HEADER_SIZE - 2) := by
  rw [headers_fmt_split]
  unfold snprintf
  simp only [List.append_assoc]
  rw [show HEADER_SIZE - 1 - 1 = HEADER_SIZE - 2 from rfl]
  rw [← List.append_assoc "HTTP/1.0 ".toList, ← List.append_assoc _ " ".toList,
    ← List.append_assoc _ title, List.take_append_of_le_length]
  · simp only [List.append_assoc]
  · simp only [List.length_append]
    omega

set_option maxRecDepth 4000 in
/-- C6, a witness of the amended statement: code 404, "Not Found", and a short
body. -/
theorem content_length_exact_witness :
    (∃ pre, (send_http_message ex_cfg ex_net ex_conn 404 "Not Found".toList
          "The requested document was not found.".toList).2.2.writes =
        ex_net.writes ++ [(ex_conn.client_fd, pre),
          (ex_conn.client_fd, "The requested document was not found.".toList)] ∧
      ("\r\nContent-Length: ".toList ++
          Nat.toDigits 10 "The requested document was not found.".toList.length ++
          "\r\n".toList) <:+: pre ∧
      parse_digits (Nat.toDigits 10 "The requested document was not found.".toList.length) =
        some "The requested document was not found.".toList.length) ∧
    (∀ s0 msg, (httperr ex_cfg s0 ex_conn 404 msg).1 = 0 → (safemalloc s0).2 = ex_net →
      "Not Found".toList = msg →
      "The requested document was not found.".toList = snprintf (ex_cfg.MAXBUFFSIZE - 1)
        (message_fmt msg 404 ex_cfg.PACKAGE ex_cfg.VERSION) →
      httperr ex_cfg s0 ex_conn 404 msg =
        send_http_message ex_cfg ex_net ex_conn 404 "Not Found".toList
          "The requested document was not found.".toList) :=
  content_length_exact ex_cfg ex_net ex_conn 404 "Not Found".toList
    "The requested document was not found.".toList (by decide) (by decide) (by decide)

/-- C6, the claim as stated fails: with a reason phrase of 8190 bytes the
preamble is cut at `HEADER_SIZE - 2` bytes, inside the status line, and holds
no `Content-Length` header at all. -/
theorem content_length_counterexample :
    (send_http_message ex_cfg ex_net ex_conn 404 (List.replicate 8190 'a') "x".toList).1 = 0 ∧
    ∃ pre, (send_http_message ex_cfg ex_net ex_conn 404 (List.replicate 8190 'a')
          "x".toList).2.2.writes = [(7, pre), (7, "x".toList)] ∧
      pre.length = 8190 ∧
      ¬ ("Content-Length: ".toList <:+: pre) := by
  have hok : (send_http_message ex_cfg ex_net ex_conn 404 (List.replicate 8190 'a')
      "x".toList).1 = 0 := by decide
  have hlen : HEADER_SIZE - 2 ≤ (List.replicate 8190 'a').length := by
    rw [List.length_replicate]; decide
  refine ⟨hok, snprintf (HEADER_SIZE - 1) (headers_fmt 404 (List.replicate 8190 'a')
    ex_cfg.PACKAGE ex_cfg.VERSION ex_net.date (int_of_size "x".toList.length)), ?_, ?_, ?_⟩
  · rw [send_http_message_eq _ _ _ _ _ _ hok]
    rfl
  · rw [truncated_preamble _ _ _ _ _ _ hlen, List.length_take, List.length_append,
      List.length_replicate]
    decide
  · rw [truncated_preamble _ _ _ _ _ _ hlen]
    intro hin
    have hC : 'C' ∈ "Content-Length: ".toList := by decide
    have h1 := List.mem_of_mem_take (hin.subset hC)
    simp only [List.mem_append, List.mem_replicate] at h1
    rcases h1 with ((h | h) | h) | h
    · revert h; decide
    · revert h; decide
    · revert h; decide
    · exact absurd h.2 (by decide)
set_option maxRecDepth 8000 in
/-- C10, the witness of the specification: code 404 with the message
"Not Found". -/
theorem httperr_shape_witness :
    ∃ pre body, (httperr ex_cfg ex_net ex_conn 404 "Not Found".toList).2.2.writes =
        ex_net.writes ++ [(ex_conn.client_fd, pre), (ex_conn.client_fd, body)] ∧
      (httperr ex_cfg ex_net ex_conn 404 "Not Found".toList).2.1.send_message = true ∧
      ("HTTP/1.0 ".toList ++ fmt_d 404 ++ " ".toList ++ "Not Found".toList ++ "\r\n".toList)
        <+: pre ∧
      ("<title>".toList ++ "Not Found".toList ++ "</title>".toList) <:+: body ∧
      ("An error of type ".toList ++ fmt_d 404 ++ " occurred: ".toList ++ "Not Found".toList)
        <:+: body ∧
      ("Generated by ".toList ++ ex_cfg.PACKAGE ++ " (".toList ++ ex_cfg.VERSION ++ ")".toList)
        <:+: body :=
  httperr_shape ex_cfg ex_net ex_conn 404 "Not Found".toList (by decide) (by decide) (by decide)

/-- C10, the claim as stated fails: with a message of 8190 bytes `httperr`
succeeds, but the preamble it writes is cut at `HEADER_SIZE - 2` bytes and
does not hold the status line followed by CRLF. -/
theorem httperr_shape_counterexample :
    (httperr ex_cfg ex_net ex_conn 404 (List.replicate 8190 'a')).1 = 0 ∧
    ∃ pre body, (httperr ex_cfg ex_net ex_conn 404 (List.replicate 8190 'a')).2.2.writes =
        [(7, pre), (7, body)] ∧
      ¬ (("HTTP/1.0 ".toList ++ fmt_d 404 ++ " ".toList ++ List.replicate 8190 'a' ++
            "\r\n".toList) <+: pre) := by
  have hok : (httperr ex_cfg ex_net ex_conn 404 (List.replicate 8190 'a')).1 = 0 := by decide
  obtain ⟨-, heq, hsend⟩ := httperr_eq _ _ _ _ _ hok
  refine ⟨hok, snprintf (HEADER_SIZE - 1) (headers_fmt 404 (List.replicate 8190 'a')
    ex_cfg.PACKAGE ex_cfg.VERSION ex_net.date (int_of_size
      (snprintf (ex_cfg.MAXBUFFSIZE - 1) (message_fmt (List.replicate 8190 'a') 404
        ex_cfg.PACKAGE ex_cfg.VERSION)).length)),
    snprintf (ex_cfg.MAXBUFFSIZE - 1) (message_fmt (List.replicate 8190 'a') 404
        ex_cfg.PACKAGE ex_cfg.VERSION), ?_, ?_⟩
  · rw [heq, send_http_message_eq _ _ _ _ _ _ hsend]
    rfl
  · intro hpre
    have h1 := hpre.length_le
    have h2 := snprintf_length_le (HEADER_SIZE - 1) (headers_fmt 404 (List.replicate 8190 'a')
      ex_cfg.PACKAGE ex_cfg.VERSION ex_net.date (int_of_size
        (snprintf (ex_cfg.MAXBUFFSIZE - 1) (message_fmt (List.replicate 8190 'a') 404
          ex_cfg.PACKAGE ex_cfg.VERSION)).length))
    rw [List.length_append, List.length_append, List.length_replicate] at h1
    have h3 : HEADER_SIZE - 1 - 1 = 8190 := by decide
    have h4 : "\r\n".toList.length = 2 := by decide
    omega
/-! ### Frame lemmas of the kernel model -/

theorem acts_fds (acts : List Act) (w : World) :
    (acts.foldl Act.apply w).fds = w.fds ∧ (acts.foldl Act.apply w).trace = w.trace ∧
    (acts.foldl Act.apply w).script = w.script ∧ (acts.foldl Act.apply w).pid = w.pid := by
  induction acts generalizing w with
  | nil => exact ⟨rfl, rfl, rfl, rfl⟩
  | cons a as ih =>
    simp only [List.foldl_cons]
    obtain ⟨h1, h2, h3, h4⟩ := ih (Act.apply w a)
    rw [h1, h2, h3, h4]
    cases a <;> exact ⟨rfl, rfl, rfl, rfl⟩

theorem tick_fds (w : World) : (tick w).2.fds = w.fds := by
  unfold tick
  split
  · rfl
  · exact (acts_fds _ _).1

theorem tick_trace (w : World) : (tick w).2.trace = w.trace := by
  unfold tick
  split
  · rfl
  · exact (acts_fds _ _).2.1

theorem le_foldr_max (l : List Nat) (b x : Nat) (h : x ∈ l) : x ≤ l.foldr max b := by
  induction l with
  | nil => simp at h
  | cons y ys ih =>
    simp only [List.foldr_cons]
    rcases List.mem_cons.1 h with rfl | h
    · exact le_max_left _ _
    · exact le_trans (ih h) (le_max_right _ _)

theorem fresh_fd_not_used (w : World) : ∀ e ∈ w.fds, e.1 ≠ fresh_fd w := by
  intro e he
  have := le_foldr_max (w.fds.map (·.1)) 2 e.1 (List.mem_map_of_mem _ he)
  unfold fresh_fd
  omega

theorem filter_fresh (fds : List (Nat × Nat)) (fd : Nat) (h : ∀ e ∈ fds, e.1 ≠ fd) :
    fds.filter (fun e => e.1 ≠ fd) = fds := by
  rw [List.filter_eq_self]
  intro e he
  simpa using h e he

theorem sys_lstat_frame (path : String) (w : World) :
    (sys_lstat path w).2.fds = w.fds ∧
    (sys_lstat path w).2.trace = w.trace ++ [Event.lstat path] := by
  have h1 := tick_fds w
  have h2 := tick_trace w
  unfold sys_lstat
  generalize tick w = t at h1 h2 ⊢
  rcases t with ⟨f, w1⟩
  simp only at h1 h2
  cases f with
  | some e => simp [record, h1, h2]
  | none =>
    simp only
    split
    · simp [record, h1, h2]
    · split <;> simp [record, h1, h2]

theorem sys_fstat_frame (fd : Nat) (w : World) :
    (sys_fstat fd w).2.fds = w.fds ∧
    (sys_fstat fd w).2.trace = w.trace ++ [Event.fstat fd] := by
  have h1 := tick_fds w
  have h2 := tick_trace w
  unfold sys_fstat
  generalize tick w = t at h1 h2 ⊢
  rcases t with ⟨f, w1⟩
  simp only at h1 h2
  cases f with
  | some e => simp [record, h1, h2]
  | none =>
    simp only
    split
    · simp [record, h1, h2]
    · split <;> simp [record, h1, h2]

theorem sys_ftruncate_frame (fd len : Nat) (w : World) :
    (sys_ftruncate fd len w).2.fds = w.fds ∧
    (sys_ftruncate fd len w).2.trace = w.trace ++ [Event.ftruncate fd len] := by
  have h1 := tick_fds w
  have h2 := tick_trace w
  unfold sys_ftruncate
  generalize tick w = t at h1 h2 ⊢
  rcases t with ⟨f, w1⟩
  simp only at h1 h2
  cases f with
  | some e => simp [record, h1, h2]
  | none =>
    simp only
    split
    · simp [record, h1, h2]
    · split <;> simp [record, set_node, h1, h2]

theorem sys_close_frame (fd : Nat) (w : World) :
    (sys_close fd w).fds = w.fds.filter (fun e => e.1 ≠ fd) ∧
    (sys_close fd w).trace = w.trace ++ [Event.close fd] := by
  simp [sys_close, record, tick_fds, tick_trace]

theorem log_message_frame (w : World) (msg : String) :
    (log_message w msg).fds = w.fds ∧ (log_message w msg).trace = w.trace ++ [Event.log msg] :=
  ⟨rfl, rfl⟩

/-- What `open` does to the descriptor table and to the trace. -/
theorem sys_open_frame (path : String) (flags : Nat) (mode : Option Nat) (w : World) :
    (sys_open path flags mode w).2.trace = w.trace ++ [Event.open path flags mode] ∧
    (∀ e, (sys_open path flags mode w).1 = .error e → (sys_open path flags mode w).2.fds = w.fds) ∧
    (∀ fd, (sys_open path flags mode w).1 = .ok fd →
      (∀ e ∈ w.fds, e.1 ≠ fd) ∧ ∃ id, (sys_open path flags mode w).2.fds = (fd, id) :: w.fds) := by
  have h1 := tick_fds w
  have h2 := tick_trace w
  have hfr := fun (w : World) => fresh_fd_not_used w
  unfold sys_open
  generalize tick w = t at h1 h2 ⊢
  rcases t with ⟨f, w1⟩
  simp only at h1 h2
  cases f with
  | some e => simp [record, h1, h2]
  | none =>
    simp only
    split
    · simp [record, h1, h2]
    · split
      · simp [record, h1, h2]
      · split
        · refine ⟨by simp [record, h2], by simp, ?_⟩
          intro fd hfd
          simp only [Except.ok.injEq] at hfd
          subst hfd
          refine ⟨?_, fresh_id (record w1 (Event.open path flags mode)), by simp [record, h1]⟩
          rw [← h1]
          exact hfr (record w1 (Event.open path flags mode))
        · simp [record, h1, h2]
      · split
        · simp [record, h1, h2]
        · refine ⟨?_, by simp, ?_⟩
          · split <;> simp [record, set_node, h2]
          · intro fd hfd
            simp only [Except.ok.injEq] at hfd
            subst hfd
            rename_i id n _ _
            refine ⟨?_, id, ?_⟩
            · rw [← h1]
              split
              · exact hfr (set_node (record w1 (Event.open path flags mode)) _ _)
              · exact hfr (record w1 (Event.open path flags mode))
            · split <;> simp [record, set_node, h1]
/-! ### `create_file_safely` -/

/-- C1. Identity defense: when the initial `lstat` succeeds and
`create_file_safely` returns a descriptor, the object it opened was examined
by `fstat` and has the device, inode and mode seen by `lstat`, that mode is a
regular file, and there is at most one link (with `ftruncate` available the
descriptor returned is the one examined).  Conversely, when the opened object
differs from the inspected one in device, inode or mode, the result is -1. -/
theorem create_file_safely_identity (cfg : Config) (filename : String) (w w1 : World)
    (lstatinfo : Stat) (hl : sys_lstat filename w = (.ok lstatinfo, w1)) :
    (0 ≤ (create_file_safely cfg filename w).1 →
      ∃ fildes w2 fstatinfo w3,
        sys_open filename O_RDWR none w1 = (.ok fildes, w2) ∧
        sys_fstat fildes w2 = (.ok fstatinfo, w3) ∧
        fstatinfo.st_dev = lstatinfo.st_dev ∧ fstatinfo.st_ino = lstatinfo.st_ino ∧
        fstatinfo.st_mode = lstatinfo.st_mode ∧ S_ISREG fstatinfo.st_mode = true ∧
        fstatinfo.st_nlink ≤ 1 ∧
        (cfg.HAVE_FTRUNCATE = true → (create_file_safely cfg filename w).1 = fildes)) ∧
    (∀ fildes w2 fstatinfo w3,
      sys_open filename O_RDWR none w1 = (.ok fildes, w2) →
      sys_fstat fildes w2 = (.ok fstatinfo, w3) →
      (fstatinfo.st_dev ≠ lstatinfo.st_dev ∨ fstatinfo.st_ino ≠ lstatinfo.st_ino ∨
        fstatinfo.st_mode ≠ lstatinfo.st_mode) →
      (create_file_safely cfg filename w).1 = -1) := by
  rcases hop : sys_open filename O_RDWR none w1 with ⟨ro, w2⟩
  cases ro with
  | error e =>
    simp [create_file_safely, hl, create_file_safely_after_lstat, hop]
  | ok fildes =>
    rcases hfs : sys_fstat fildes w2 with ⟨rf, w3⟩
    cases rf with
    | error e =>
      simp [create_file_safely, hl, create_file_safely_after_lstat, hop, hfs]
    | ok fstatinfo =>
      simp only [create_file_safely, hl, create_file_safely_after_lstat, hop, hfs]
      by_cases hid : lstatinfo.st_mode ≠ fstatinfo.st_mode
          ∨ lstatinfo.st_ino ≠ fstatinfo.st_ino
          ∨ lstatinfo.st_dev ≠ fstatinfo.st_dev
      · rw [if_pos hid]
        simp
      · rw [if_neg hid]
        simp only [not_or, not_not] at hid
        obtain ⟨hm, hi, hd⟩ := hid
        constructor
        · intro hret
          by_cases hlk : fstatinfo.st_nlink > 1 ∨ S_ISREG lstatinfo.st_mode = false
          · rw [if_pos hlk] at hret
            simp at hret
          · simp only [not_or, not_lt, Bool.not_eq_false] at hlk
            refine ⟨fildes, w2, fstatinfo, w3, rfl, hfs, hd.symm, hi.symm, hm.symm,
              hm ▸ hlk.2, hlk.1, ?_⟩
            intro hft
            rw [if_neg (by simp [hlk.1, hlk.2]), if_pos hft]
        · intro fildes1 w21 fs1 w31 h1 h2 hne
          simp only [Prod.mk.injEq, Except.ok.injEq] at h1
          obtain ⟨rfl, rfl⟩ := h1
          rw [hfs] at h2
          simp only [Prod.mk.injEq, Except.ok.injEq] at h2
          obtain ⟨rfl, rfl⟩ := h2
          rcases hne with h | h | h
          · exact absurd hd.symm h
          · exact absurd hi.symm h
          · exact absurd hm.symm h
/-- C2. Link-count and file-type defense: for an existing path, when the
inspected mode is not a regular file or the opened object has more than one
link, `create_file_safely` returns -1 and leaves the descriptor table as it
found it; and on every failure after the open, the descriptor it had opened
has been closed. -/
theorem create_file_safely_rejects (cfg : Config) (filename : String) (w w1 : World)
    (lstatinfo : Stat) (hl : sys_lstat filename w = (.ok lstatinfo, w1)) :
    ((S_ISREG lstatinfo.st_mode = false ∨
        ∃ fildes w2 fstatinfo w3, sys_open filename O_RDWR none w1 = (.ok fildes, w2) ∧
          sys_fstat fildes w2 = (.ok fstatinfo, w3) ∧ 1 < fstatinfo.st_nlink) →
      (create_file_safely cfg filename w).1 = -1 ∧
      (create_file_safely cfg filename w).2.fds = w.fds) ∧
    (∀ fildes w2, sys_open filename O_RDWR none w1 = (.ok fildes, w2) →
      (create_file_safely cfg filename w).1 = -1 →
      Event.close fildes ∈ (create_file_safely cfg filename w).2.trace ∧
      ∀ e ∈ (create_file_safely cfg filename w).2.fds, e.1 ≠ fildes) := by
  have hw1 : w1.fds = w.fds := by
    have := (sys_lstat_frame filename w).1
    rw [hl] at this
    exact this
  have hopf := sys_open_frame filename O_RDWR none w1
  rcases hop : sys_open filename O_RDWR none w1 with ⟨ro, w2⟩
  rw [hop] at hopf
  obtain ⟨-, hoe, hoo⟩ := hopf
  cases ro with
  | error e =>
    have := hoe e rfl
    simp only at this
    simp [create_file_safely, hl, create_file_safely_after_lstat, hop, log_message_frame,
      this, hw1]
  | ok fildes =>
    obtain ⟨hfresh, id, hfds⟩ := hoo fildes rfl
    simp only at hfds
    have hff := (sys_fstat_frame fildes w2).1
    have hclosed : ∀ (w3 : World) (msg : String), w3.fds = w2.fds →
        (sys_close fildes (log_message w3 msg)).fds = w.fds ∧
        Event.close fildes ∈ (sys_close fildes (log_message w3 msg)).trace ∧
        ∀ e ∈ (sys_close fildes (log_message w3 msg)).fds, e.1 ≠ fildes := by
      intro w3 msg h3
      have hc := sys_close_frame fildes (log_message w3 msg)
      rw [hc.1, hc.2, (log_message_frame w3 msg).1, h3, hfds]
      refine ⟨?_, by simp, ?_⟩
      · rw [List.filter_cons_of_neg (by simp), filter_fresh _ _ hfresh, hw1]
      · intro e he
        simpa using (List.mem_filter.1 he).2
    rcases hfs : sys_fstat fildes w2 with ⟨rf, w3⟩
    rw [hfs] at hff
    simp only at hff
    cases rf with
    | error e =>
      obtain ⟨c1, c2, c3⟩ := hclosed w3
        "create_file_safely: The PID file has been changed before it could be opened" hff
      simp only [create_file_safely, hl, create_file_safely_after_lstat, hop, hfs]
      refine ⟨fun _ => ⟨trivial, c1⟩, ?_⟩
      intro f1 w21 h1 _
      simp only [Prod.mk.injEq, Except.ok.injEq] at h1
      obtain ⟨rfl, rfl⟩ := h1
      exact ⟨c2, c3⟩
    | ok fstatinfo =>
      simp only [create_file_safely, hl, create_file_safely_after_lstat, hop, hfs]
      by_cases hid : lstatinfo.st_mode ≠ fstatinfo.st_mode
          ∨ lstatinfo.st_ino ≠ fstatinfo.st_ino
          ∨ lstatinfo.st_dev ≠ fstatinfo.st_dev
      · obtain ⟨c1, c2, c3⟩ := hclosed w3
          "create_file_safely: The PID file has been changed before it could be opened" hff
        rw [if_pos hid]
        refine ⟨fun _ => ⟨rfl, c1⟩, ?_⟩
        intro f1 w21 h1 _
        simp only [Prod.mk.injEq, Except.ok.injEq] at h1
        obtain ⟨rfl, rfl⟩ := h1
        exact ⟨c2, c3⟩
      · rw [if_neg hid]
        by_cases hlk : fstatinfo.st_nlink > 1 ∨ S_ISREG lstatinfo.st_mode = false
        · obtain ⟨c1, c2, c3⟩ := hclosed w3
            "create_file_safely: The PID file has too many links, or is not a regular file" hff
          rw [if_pos hlk]
          refine ⟨fun _ => ⟨rfl, c1⟩, ?_⟩
          intro f1 w21 h1 _
          simp only [Prod.mk.injEq, Except.ok.injEq] at h1
          obtain ⟨rfl, rfl⟩ := h1
          exact ⟨c2, c3⟩
        · rw [if_neg hlk]
          simp only [not_or, not_lt, Bool.not_eq_false] at hlk
          constructor
          · rintro (h | ⟨f1, w21, fs1, w31, h1, h2, h3⟩)
            · rw [hlk.2] at h; exact absurd h (by simp)
            · simp only [Prod.mk.injEq, Except.ok.injEq] at h1
              obtain ⟨rfl, rfl⟩ := h1
              rw [hfs] at h2
              simp only [Prod.mk.injEq, Except.ok.injEq] at h2
              obtain ⟨rfl, rfl⟩ := h2
              omega
          · intro f1 w21 h1
            simp only [Prod.mk.injEq, Except.ok.injEq] at h1
            obtain ⟨rfl, rfl⟩ := h1
            by_cases hft : cfg.HAVE_FTRUNCATE = true
            · rw [if_pos hft]
              intro h
              have h' : (fildes : Int) = -1 := h
              omega
            · rw [if_neg hft]
              have hcf := sys_close_frame fildes w3
              have hopf2 := sys_open_frame filename (O_RDWR ||| O_CREAT ||| O_TRUNC)
                (some 0o600) (sys_close fildes w3)
              rcases hop2 : sys_open filename (O_RDWR ||| O_CREAT ||| O_TRUNC) (some 0o600)
                (sys_close fildes w3) with ⟨ro2, w5⟩
              rw [hop2] at hopf2
              obtain ⟨ht, hoe2, -⟩ := hopf2
              cases ro2 with
              | error e =>
                intro _
                have h5 := hoe2 e rfl
                have h5' : w5.fds = (sys_close fildes w3).fds := h5
                have ht' : w5.trace = (sys_close fildes w3).trace ++
                    [Event.open filename (O_RDWR ||| O_CREAT ||| O_TRUNC) (some 0o600)] := ht
                simp only [(log_message_frame w5 _).1, (log_message_frame w5 _).2, h5', ht',
                  hcf.1, hcf.2]
                refine ⟨by simp, ?_⟩
                intro e he
                simpa using (List.mem_filter.1 he).2
              | ok fd2 =>
                intro h
                have h' : (fd2 : Int) = -1 := h
                omega
/-- C1, a witness: the PID file of an earlier run, nothing interfering.  The
call returns a descriptor, so the object opened is the one inspected. -/
theorem create_file_safely_identity_witness :
    0 ≤ (create_file_safely ex_cfg pidfile ex_world).1 ∧
    ∃ fildes w2 fstatinfo w3,
      sys_open pidfile O_RDWR none (sys_lstat pidfile ex_world).2 = (.ok fildes, w2) ∧
      sys_fstat fildes w2 = (.ok fstatinfo, w3) ∧
      fstatinfo.st_dev = (reg_file 10 []).st.st_dev ∧
      fstatinfo.st_ino = (reg_file 10 []).st.st_ino ∧
      fstatinfo.st_mode = (reg_file 10 []).st.st_mode ∧ S_ISREG fstatinfo.st_mode = true ∧
      fstatinfo.st_nlink ≤ 1 ∧
      (ex_cfg.HAVE_FTRUNCATE = true → (create_file_safely ex_cfg pidfile ex_world).1 = fildes) :=
  ⟨by decide,
   (create_file_safely_identity ex_cfg pidfile ex_world (sys_lstat pidfile ex_world).2
      (reg_file 10 []).st (by decide)).1 (by decide)⟩

/-- The swap of the specification: the path is replaced by a symbolic link
to a sensitive file between `lstat` and `open`.  The call fails, no
descriptor stays open and the sensitive file is untouched. -/
theorem create_file_safely_swap_example :
    (sys_lstat pidfile ex_swap).1 = .ok (reg_file 10 []).st ∧
    (create_file_safely ex_cfg pidfile ex_swap).1 = -1 ∧
    (create_file_safely ex_cfg pidfile ex_swap).2.fds = [] ∧
    (file_at (create_file_safely ex_cfg pidfile ex_swap).2 passwd).map (·.data)
      = some "root:x:0:0\n".toList := by
  refine ⟨by decide, by decide, by decide, by decide⟩

/-- C2, a witness: the path is a second hard link to an existing file. -/
theorem create_file_safely_rejects_witness :
    (create_file_safely ex_cfg pidfile ex_hardlink).1 = -1 ∧
    (create_file_safely ex_cfg pidfile ex_hardlink).2.fds = ex_hardlink.fds ∧
    Event.close 3 ∈ (create_file_safely ex_cfg pidfile ex_hardlink).2.trace :=
  have h := create_file_safely_rejects ex_cfg pidfile ex_hardlink
    (sys_lstat pidfile ex_hardlink).2
    { st_dev := 1, st_ino := 20, st_mode := S_IFREG ||| 0o644, st_nlink := 2 } (by decide)
  have h1 := h.1 (Or.inr ⟨3, (sys_open pidfile O_RDWR none (sys_lstat pidfile ex_hardlink).2).2,
    { st_dev := 1, st_ino := 20, st_mode := S_IFREG ||| 0o644, st_nlink := 2 },
    (sys_fstat 3 (sys_open pidfile O_RDWR none (sys_lstat pidfile ex_hardlink).2).2).2,
    by decide, by decide, by decide⟩)
  ⟨h1.1, h1.2, (h.2 3 (sys_open pidfile O_RDWR none (sys_lstat pidfile ex_hardlink).2).2
    (by decide) h1.1).1⟩
/-! ### The exclusive create -/

theorem tick_undisturbed (w : World) (h : undisturbed w) :
    (tick w).2.names = w.names ∧ (tick w).2.nodes = w.nodes ∧ undisturbed (tick w).2 := by
  unfold tick
  split
  · exact ⟨rfl, rfl, h⟩
  · rename_i s rest hs
    have hs0 : s.acts = [] := h s (by rw [hs]; exact List.mem_cons_self _ _)
    rw [hs0]
    refine ⟨rfl, rfl, ?_⟩
    intro t ht
    exact h t (by rw [hs]; exact List.mem_cons_of_mem _ ht)

theorem excl_flags_creat : has_flag EXCL_FLAGS O_CREAT = true := by decide

theorem excl_flags_excl : has_flag EXCL_FLAGS O_EXCL = true := by decide

/-- The exclusive create fails when the path is present as the call is
entered, whoever made it. -/
theorem sys_open_excl_exists (path : String) (mode : Option Nat) (w : World)
    (hp : ((tick w).2.names.lookup path).isSome = true) :
    ∃ e, (sys_open path EXCL_FLAGS mode w).1 = .error e := by
  unfold sys_open
  generalize tick w = t at hp ⊢
  rcases t with ⟨f, w1⟩
  simp only at hp
  cases f with
  | some e => exact ⟨e, rfl⟩
  | none =>
    have hp1 : (List.lookup path (record w1 (Event.open path EXCL_FLAGS mode)).names).isSome
        = true := hp
    simp only [hp1, excl_flags_creat, excl_flags_excl, Bool.and_self, if_true]
    exact ⟨_, rfl⟩

/-- The exclusive create fails on a path that is present. -/
theorem sys_open_excl_present (path : String) (mode : Option Nat) (w : World)
    (hu : undisturbed w) (hp : (w.names.lookup path).isSome = true) :
    ∃ e, (sys_open path EXCL_FLAGS mode w).1 = .error e :=
  sys_open_excl_exists path mode w (by rw [(tick_undisturbed w hu).1]; exact hp)

/-- After a successful exclusive create the path is present, and the
remaining script is undisturbed when the script was. -/
theorem sys_open_excl_ok (path : String) (mode : Option Nat) (w w1 : World) (fd : Nat)
    (hu : undisturbed w) (h : sys_open path EXCL_FLAGS mode w = (.ok fd, w1)) :
    (w1.names.lookup path).isSome = true ∧ undisturbed w1 := by
  obtain ⟨-, -, hu1⟩ := tick_undisturbed w hu
  unfold sys_open at h
  generalize tick w = t at hu1 h
  rcases t with ⟨f, w0⟩
  simp only at hu1
  cases f with
  | some e => simp at h
  | none =>
    simp only [excl_flags_creat, excl_flags_excl, Bool.and_self, Bool.true_and] at h
    split at h
    · simp at h
    · rename_i hnone
      have hl : List.lookup path (record w0 (Event.open path EXCL_FLAGS mode)).names = none :=
        Option.not_isSome_iff_eq_none.1 hnone
      have hr : resolve (record w0 (Event.open path EXCL_FLAGS mode)) 8 path
          = .ok (path, none) := by
        simp only [resolve, hl]
      rw [hr] at h
      simp only [if_true, Prod.mk.injEq, Except.ok.injEq] at h
      obtain ⟨-, rfl⟩ := h
      refine ⟨by simp [List.lookup], ?_⟩
      exact hu1

/-- In a quiet world the exclusive create succeeds on an absent path. -/
theorem sys_open_excl_absent (path : String) (mode : Option Nat) (w : World)
    (hs : w.script = []) (hp : w.names.lookup path = none) :
    ∃ fd, (sys_open path EXCL_FLAGS mode w).1 = .ok fd := by
  have ht : tick w = (none, w) := by simp [tick, hs]
  have hp1 : List.lookup path (record w (Event.open path EXCL_FLAGS mode)).names = none := hp
  have hr : resolve (record w (Event.open path EXCL_FLAGS mode)) 8 path = .ok (path, none) := by
    simp only [resolve, hp1]
  simp only [sys_open, ht, hr, excl_flags_creat, excl_flags_excl, hp1, Option.isSome_none,
    Bool.and_false, Bool.false_eq_true, if_false, if_true]
  exact ⟨_, rfl⟩
theorem after_lstat_enoent (cfg : Config) (filename : String) (w1 : World) :
    create_file_safely_after_lstat cfg filename (.error Errno.ENOENT) w1 =
      match sys_open filename EXCL_FLAGS (some 0o600) w1 with
      | (.error _, w2) =>
        (-1, log_message w2 "create_file_safely: Could not create PID file")
      | (.ok fildes, w2) => ((fildes : Int), w2) := by
  simp [create_file_safely_after_lstat, EXCL_FLAGS]

/-- C3 (as amended). When `lstat` reports `ENOENT`, `create_file_safely`
issues exactly one `open`, with `O_RDWR | O_CREAT | O_EXCL` and mode 0600;
it returns that descriptor when the open succeeds and -1 when it fails, in
particular when the path is present as the open is entered.  Of two
acquisitions that both observed the path as absent and then run their opens
one after the other, with no other process changing the directory, never
both succeed; and when moreover no call is made to fail and the path is
absent, the first succeeds and the second fails. -/
theorem create_file_safely_exclusive (cfg : Config) (filename : String) (w w1 : World)
    (hl : sys_lstat filename w = (.error Errno.ENOENT, w1)) :
    (∃ logs, (create_file_safely cfg filename w).2.trace =
        w.trace ++ [Event.lstat filename,
          Event.open filename (O_RDWR ||| O_CREAT ||| O_EXCL) (some 0o600)] ++ logs ∧
      ∀ e ∈ logs, ∃ m, e = Event.log m) ∧
    (∀ fd w2, sys_open filename (O_RDWR ||| O_CREAT ||| O_EXCL) (some 0o600) w1 = (.ok fd, w2) →
      create_file_safely cfg filename w = ((fd : Int), w2)) ∧
    (∀ e w2, sys_open filename (O_RDWR ||| O_CREAT ||| O_EXCL) (some 0o600) w1 = (.error e, w2) →
      (create_file_safely cfg filename w).1 = -1) ∧
    (((tick w1).2.names.lookup filename).isSome = true →
      (create_file_safely cfg filename w).1 = -1) ∧
    (∀ w2, sys_lstat filename w1 = (.error Errno.ENOENT, w2) → undisturbed w2 →
      ¬ (0 ≤ (create_file_safely_after_lstat cfg filename (.error Errno.ENOENT) w2).1 ∧
         0 ≤ (create_file_safely_after_lstat cfg filename (.error Errno.ENOENT)
            (create_file_safely_after_lstat cfg filename (.error Errno.ENOENT) w2).2).1) ∧
      (w2.script = [] → w2.names.lookup filename = none →
        0 ≤ (create_file_safely_after_lstat cfg filename (.error Errno.ENOENT) w2).1 ∧
        (create_file_safely_after_lstat cfg filename (.error Errno.ENOENT)
            (create_file_safely_after_lstat cfg filename (.error Errno.ENOENT) w2).2).1 = -1)) := by
  have hflags : O_RDWR ||| O_CREAT ||| O_EXCL = EXCL_FLAGS := rfl
  have hw1 : w1.trace = w.trace ++ [Event.lstat filename] := by
    have := (sys_lstat_frame filename w).2
    rw [hl] at this
    exact this
  have hc : create_file_safely cfg filename w =
      create_file_safely_after_lstat cfg filename (.error Errno.ENOENT) w1 := by
    simp only [create_file_safely, hl]
  rw [hc, hflags]
  have hsecond : ∀ (wa : World) (fd : Nat) (wb : World), undisturbed wa →
      sys_open filename EXCL_FLAGS (some 0o600) wa = (.ok fd, wb) →
      (create_file_safely_after_lstat cfg filename (.error Errno.ENOENT) wb).1 = -1 := by
    intro wa fd wb hu ho
    obtain ⟨hp, hub⟩ := sys_open_excl_ok filename (some 0o600) wa wb fd hu ho
    obtain ⟨e, he⟩ := sys_open_excl_present filename (some 0o600) wb hub hp
    rw [after_lstat_enoent]
    rcases hob : sys_open filename EXCL_FLAGS (some 0o600) wb with ⟨r, wc⟩
    rw [hob] at he
    simp only at he
    subst he
    rfl
  refine ⟨?_, ?_, ?_, ?_, ?_⟩
  · have hot := (sys_open_frame filename EXCL_FLAGS (some 0o600) w1).1
    rw [after_lstat_enoent]
    rcases hop : sys_open filename EXCL_FLAGS (some 0o600) w1 with ⟨r, w2⟩
    rw [hop] at hot
    simp only at hot
    cases r with
    | error e =>
      refine ⟨[Event.log "create_file_safely: Could not create PID file"], ?_, ?_⟩
      · simp [log_message, record, hot, hw1]
      · intro e he
        exact ⟨_, List.mem_singleton.1 he⟩
    | ok fd =>
      refine ⟨[], ?_, by simp⟩
      simp [hot, hw1]
  · intro fd w2 hop
    rw [after_lstat_enoent, hop]
  · intro e w2 hop
    rw [after_lstat_enoent, hop]
  · intro hp
    obtain ⟨e, he⟩ := sys_open_excl_exists filename (some 0o600) w1 hp
    rw [after_lstat_enoent]
    rcases hop : sys_open filename EXCL_FLAGS (some 0o600) w1 with ⟨r, w2⟩
    rw [hop] at he
    simp only at he
    subst he
    rfl
  · intro w2 _ hu
    constructor
    · rintro ⟨ha, hb⟩
      rcases hop : sys_open filename EXCL_FLAGS (some 0o600) w2 with ⟨r, wa⟩
      cases r with
      | error e =>
        rw [after_lstat_enoent, hop] at ha
        simp at ha
      | ok fd =>
        have hA : create_file_safely_after_lstat cfg filename (.error Errno.ENOENT) w2
            = ((fd : Int), wa) := by rw [after_lstat_enoent, hop]
        rw [hA] at hb
        simp only at hb
        rw [hsecond w2 fd wa hu hop] at hb
        simp at hb
    · intro hs hn
      have hu2 : undisturbed w2 := by
        intro s hs'
        rw [hs] at hs'
        simp at hs'
      obtain ⟨fd, hfd⟩ := sys_open_excl_absent filename (some 0o600) w2 hs hn
      rcases hop : sys_open filename EXCL_FLAGS (some 0o600) w2 with ⟨r, wa⟩
      rw [hop] at hfd
      simp only at hfd
      subst hfd
      have hA : create_file_safely_after_lstat cfg filename (.error Errno.ENOENT) w2
          = ((fd : Int), wa) := by rw [after_lstat_enoent, hop]
      rw [hA]
      exact ⟨by simp, hsecond w2 fd wa hu2 hop⟩
/-- C3, a witness of the amended statement: the PID file is absent and the
system is quiet.  The call creates the file; of two acquisitions that both
saw the path absent, the first succeeds and the second fails. -/
theorem create_file_safely_exclusive_witness :
    create_file_safely ex_cfg pidfile ex_empty =
      (((3 : Nat) : Int), (sys_open pidfile (O_RDWR ||| O_CREAT ||| O_EXCL) (some 0o600)
        (sys_lstat pidfile ex_empty).2).2) ∧
    (0 ≤ (create_file_safely_after_lstat ex_cfg pidfile (.error Errno.ENOENT)
        (sys_lstat pidfile (sys_lstat pidfile ex_empty).2).2).1 ∧
      (create_file_safely_after_lstat ex_cfg pidfile (.error Errno.ENOENT)
        (create_file_safely_after_lstat ex_cfg pidfile (.error Errno.ENOENT)
          (sys_lstat pidfile (sys_lstat pidfile ex_empty).2).2).2).1 = -1) :=
  have h := create_file_safely_exclusive ex_cfg pidfile ex_empty (sys_lstat pidfile ex_empty).2
    (by decide)
  ⟨h.2.1 3 (sys_open pidfile (O_RDWR ||| O_CREAT ||| O_EXCL) (some 0o600)
      (sys_lstat pidfile ex_empty).2).2 (by decide),
   (h.2.2.2.2 (sys_lstat pidfile (sys_lstat pidfile ex_empty).2).2 (by decide)
      (by unfold undisturbed; decide)).2 (by decide) (by decide)⟩

/-- The race of the specification: the path comes into existence between the
`lstat` and the exclusive `open`.  The call fails, and the file made by the
other process is neither opened nor changed. -/
theorem create_file_safely_race_example :
    (sys_lstat pidfile ex_race).1 = .error Errno.ENOENT ∧
    (create_file_safely ex_cfg pidfile ex_race).1 = -1 ∧
    (create_file_safely ex_cfg pidfile ex_race).2.fds = [] ∧
    (file_at (create_file_safely ex_cfg pidfile ex_race).2 pidfile).map (·.data)
      = some "777\n".toList := by
  refine ⟨by decide, by decide, by decide, by decide⟩

/-- C3, the claim as stated fails: two acquisitions both observe the path as
absent, no other process interferes, and both fail, because the directory
cannot be written (`EACCES`); the claim promises that exactly one succeeds. -/
theorem create_file_safely_exclusive_counterexample :
    (sys_lstat pidfile ex_denied).1 = .error Errno.ENOENT ∧
    (sys_lstat pidfile (sys_lstat pidfile ex_denied).2).1 = .error Errno.ENOENT ∧
    (create_file_safely_after_lstat ex_cfg pidfile (.error Errno.ENOENT)
        (sys_lstat pidfile (sys_lstat pidfile ex_denied).2).2).1 = -1 ∧
    (create_file_safely_after_lstat ex_cfg pidfile (.error Errno.ENOENT)
        (create_file_safely_after_lstat ex_cfg pidfile (.error Errno.ENOENT)
          (sys_lstat pidfile (sys_lstat pidfile ex_denied).2).2).2).1 = -1 := by
  refine ⟨by decide, by decide, by decide, by decide⟩
/-! ### Truncation and the PID file -/

/-- C4, the failing input: an existing PID file with one link holding
"123456" and a newline, and an `ftruncate` that fails with `EIO`.
Verification passes, the result of `ftruncate` is not read, and the
descriptor 3 is returned over a file that still holds its 7 bytes. -/
theorem create_file_safely_keeps_content :
    (sys_lstat pidfile ex_ftruncate_fails).1 = .ok (reg_file 10 []).st ∧
    (create_file_safely ex_cfg pidfile ex_ftruncate_fails).1 = 3 ∧
    (file_of_fd (create_file_safely ex_cfg pidfile ex_ftruncate_fails).2 3).map
      (fun n => n.data.length) = some 7 ∧
    Event.ftruncate 3 0 ∈ (create_file_safely ex_cfg pidfile ex_ftruncate_fails).2.trace := by
  refine ⟨by decide, by decide, by decide, by decide⟩

/-- C9, the failing input: the PID file is absent, it is created, the stream
is opened, and the `write` that flushes the line fails with `ENOSPC`.
`pidfile_create` returns normally and the file is empty. -/
theorem pidfile_create_returns_unwritten :
    (create_file_safely ex_cfg pidfile ex_write_fails).1 = 3 ∧
    (pidfile_create ex_cfg pidfile ex_write_fails).1 = Outcome.returned ∧
    Event.write 3 "4242\n".toList ∈ (pidfile_create ex_cfg pidfile ex_write_fails).2.trace ∧
    (file_at (pidfile_create ex_cfg pidfile ex_write_fails).2 pidfile).map (·.data)
      = some [] := by
  refine ⟨by decide, by decide, by decide, by decide⟩

/-- C5, the failing inputs.  With the PID file of an earlier run (holding
"123456" and a newline) and a failing `write`, `pidfile_create` returns
normally over an empty file; with a failing `ftruncate`, it returns normally
over a file of two lines, "4242" and "6". -/
theorem pidfile_create_wrong_content :
    (pidfile_create ex_cfg pidfile ex_write_fails_old).1 = Outcome.returned ∧
    (file_at (pidfile_create ex_cfg pidfile ex_write_fails_old).2 pidfile).map (·.data)
      = some [] ∧
    (pidfile_create ex_cfg pidfile ex_ftruncate_fails).1 = Outcome.returned ∧
    (file_at (pidfile_create ex_cfg pidfile ex_ftruncate_fails).2 pidfile).map (·.data)
      = some "4242\n6\n".toList := by
  refine ⟨by decide, by decide, by decide, by decide⟩

/-- What does hold of the PID file: in a quiet system `pidfile_create`
returns normally, whether the file is absent or left by an earlier run, and
the file then holds exactly the decimal process id and a newline, which
reads back as the process id. -/
theorem pidfile_create_quiet_examples :
    (pidfile_create ex_cfg pidfile ex_empty).1 = Outcome.returned ∧
    (file_at (pidfile_create ex_cfg pidfile ex_empty).2 pidfile).map (·.data)
      = some (fmt_d 4242 ++ "\n".toList) ∧
    (pidfile_create ex_cfg pidfile ex_world).1 = Outcome.returned ∧
    (file_at (pidfile_create ex_cfg pidfile ex_world).2 pidfile).map (·.data)
      = some (fmt_d 4242 ++ "\n".toList) ∧
    (pidfile_create { ex_cfg with HAVE_FTRUNCATE := false } pidfile ex_world).1
      = Outcome.returned ∧
    (file_at (pidfile_create { ex_cfg with HAVE_FTRUNCATE := false } pidfile ex_world).2
      pidfile).map (·.data) = some (fmt_d 4242 ++ "\n".toList) ∧
    parse_int (fmt_d 4242) = some 4242 := by
  refine ⟨by decide, by decide, by decide, by decide, by decide, by decide, by decide⟩

/-- When `pidfile_create` ends: it exits with status 1 when
`create_file_safely` fails and when `fdopen` fails, and returns otherwise;
the results of `fprintf` and `fclose` play no part. -/
theorem pidfile_create_outcome (cfg : Config) (filename : String) (w : World) :
    ((create_file_safely cfg filename w).1 < 0 →
      (pidfile_create cfg filename w).1 = Outcome.exited 1) ∧
    (0 ≤ (create_file_safely cfg filename w).1 →
      (fdopen (create_file_safely cfg filename w).1 (create_file_safely cfg filename w).2).1
        = none →
      (pidfile_create cfg filename w).1 = Outcome.exited 1) ∧
    (0 ≤ (create_file_safely cfg filename w).1 →
      (fdopen (create_file_safely cfg filename w).1 (create_file_safely cfg filename w).2).1
        ≠ none →
      (pidfile_create cfg filename w).1 = Outcome.returned) := by
  unfold pidfile_create
  rcases create_file_safely cfg filename w with ⟨fildes, w1⟩
  simp only
  refine ⟨?_, ?_, ?_⟩
  · intro h
    rw [if_pos h]
  · intro h hf
    rw [if_neg (by omega)]
    rcases hfd : fdopen fildes w1 with ⟨r, w2⟩
    rw [hfd] at hf
    simp only at hf
    subst hf
    rfl
  · intro h hf
    rw [if_neg (by omega)]
    rcases hfd : fdopen fildes w1 with ⟨r, w2⟩
    rw [hfd] at hf
    cases r with
    | none => exact absurd rfl hf
    | some fd => rfl

/-- What does hold of the truncation on reuse, on an example: in a quiet
system two calls in sequence on the PID file of an earlier run each return a
descriptor over a file of length 0. -/
theorem create_file_safely_twice_example :
    (create_file_safely ex_cfg pidfile ex_world).1 = 3 ∧
    (file_of_fd (create_file_safely ex_cfg pidfile ex_world).2 3).map
      (fun n => n.data.length) = some 0 ∧
    (create_file_safely ex_cfg pidfile (create_file_safely ex_cfg pidfile ex_world).2).1 = 4 ∧
    (file_of_fd (create_file_safely ex_cfg pidfile
      (create_file_safely ex_cfg pidfile ex_world).2).2 4).map
      (fun n => n.data.length) = some 0 := by
  refine ⟨by decide, by decide, by decide, by decide⟩
theorem resolve_node (w : World) (fuel : Nat) (p q : String) (id : Nat) (n : Node)
    (h : resolve w fuel p = .ok (q, some (id, n))) :
    w.nodes.lookup id = some n ∧ n.target = none := by
  induction fuel generalizing p with
  | zero => simp [resolve] at h
  | succ fuel ih =>
    simp only [resolve] at h
    split at h
    · simp at h
    · split at h
      · simp at h
      · rename_i id1 _ n1 hn1
        split at h
        · exact ih _ h
        · rename_i ht
          simp only [Except.ok.injEq, Prod.mk.injEq, Option.some.injEq] at h
          obtain ⟨-, rfl, rfl⟩ := h
          exact ⟨hn1, ht⟩

/-- A successful `ftruncate (fd, 0)` leaves the file behind `fd` empty. -/
theorem sys_ftruncate_ok (fd : Nat) (w : World) (h : (sys_ftruncate fd 0 w).1 = 0) :
    ∃ n, file_of_fd (sys_ftruncate fd 0 w).2 fd = some n ∧ n.data = [] := by
  unfold sys_ftruncate at h ⊢
  generalize tick w = t at h ⊢
  rcases t with ⟨f, w1⟩
  cases f with
  | some e => simp at h
  | none =>
    simp only at h ⊢
    cases hfd : List.lookup fd (record w1 (Event.ftruncate fd 0)).fds with
    | none => rw [hfd] at h; simp at h
    | some id =>
      rw [hfd] at h
      simp only at h ⊢
      cases hn : List.lookup id (record w1 (Event.ftruncate fd 0)).nodes with
      | none => rw [hn] at h; simp at h
      | some n =>
        refine ⟨{ n with data := [] }, ?_, rfl⟩
        simp only [file_of_fd, set_node]
        rw [hfd]
        simp [List.lookup]

/-- A successful `open` with `O_TRUNC`: a regular file behind the new
descriptor is empty. -/
theorem sys_open_trunc_ok (path : String) (flags : Nat) (mode : Option Nat) (w w1 : World)
    (fd : Nat) (ht : has_flag flags O_TRUNC = true)
    (h : sys_open path flags mode w = (.ok fd, w1)) :
    ∃ n, file_of_fd w1 fd = some n ∧ (S_ISREG n.st.st_mode = true → n.data = []) := by
  unfold sys_open at h
  generalize tick w = t at h
  rcases t with ⟨f, w0⟩
  cases f with
  | some e => simp at h
  | none =>
    simp only at h
    split at h
    · simp at h
    · split at h
      · simp at h
      · split at h
        · simp only [Prod.mk.injEq, Except.ok.injEq] at h
          obtain ⟨rfl, rfl⟩ := h
          refine ⟨Node.mk (Stat.mk 1 (fresh_id (record w0 (Event.open path flags mode)))
            (S_IFREG ||| mode.getD 0) 1) [] none, ?_, fun _ => rfl⟩
          simp only [file_of_fd, List.lookup_cons_self]
        · simp at h
      · rename_i p id n hres
        obtain ⟨hn, -⟩ := resolve_node _ _ _ _ _ _ hres
        split at h
        · simp at h
        · simp only [Prod.mk.injEq, Except.ok.injEq] at h
          obtain ⟨rfl, rfl⟩ := h
          by_cases hreg : S_ISREG n.st.st_mode = true
          · refine ⟨{ n with data := [] }, ?_, fun _ => rfl⟩
            simp only [ht, hreg, Bool.and_self, if_true, file_of_fd, List.lookup_cons_self, set_node]
          · refine ⟨n, ?_, fun hr => absurd hr hreg⟩
            simp only [ht, hreg, Bool.and_false, Bool.false_eq_true, if_false, file_of_fd,
              List.lookup_cons_self, Bool.true_and]
            exact hn

/-- What does hold of the truncation: when the path exists and
`create_file_safely` returns a descriptor, then with `ftruncate` available
the descriptor is the verified one and the file behind it is empty provided
the `ftruncate` call succeeded; without `ftruncate` the descriptor comes from
the re-open with `O_TRUNC`, and a regular file behind it is empty. -/
theorem create_file_safely_truncation (cfg : Config) (filename : String) (w w1 : World)
    (lstatinfo : Stat) (hl : sys_lstat filename w = (.ok lstatinfo, w1))
    (hret : 0 ≤ (create_file_safely cfg filename w).1) :
    (cfg.HAVE_FTRUNCATE = true →
      ∃ fildes w3, (create_file_safely cfg filename w).1 = (fildes : Nat) ∧
        (create_file_safely cfg filename w).2 = (sys_ftruncate fildes 0 w3).2 ∧
        ((sys_ftruncate fildes 0 w3).1 = 0 →
          ∃ n, file_of_fd (create_file_safely cfg filename w).2 fildes = some n ∧ n.data = [])) ∧
    (cfg.HAVE_FTRUNCATE = false →
      ∃ fd2 n, (create_file_safely cfg filename w).1 = (fd2 : Nat) ∧
        file_of_fd (create_file_safely cfg filename w).2 fd2 = some n ∧
        (S_ISREG n.st.st_mode = true → n.data = [])) := by
  simp only [create_file_safely, hl, create_file_safely_after_lstat] at hret ⊢
  rcases hop : sys_open filename O_RDWR none w1 with ⟨ro, w2⟩
  rw [hop] at hret
  cases ro with
  | error e => simp at hret
  | ok fildes =>
    simp only at hret ⊢
    rcases hfs : sys_fstat fildes w2 with ⟨rf, w3⟩
    rw [hfs] at hret
    cases rf with
    | error e => simp at hret
    | ok fstatinfo =>
      simp only at hret ⊢
      split at hret
      · simp at hret
      · rename_i hid
        rw [if_neg hid]
        split at hret
        · simp at hret
        · rename_i hlk
          rw [if_neg hlk]
          constructor
          · intro hft
            rw [if_pos hft]
            exact ⟨fildes, w3, rfl, rfl, fun h => sys_ftruncate_ok fildes w3 h⟩
          · intro hft
            have hft' : ¬ cfg.HAVE_FTRUNCATE = true := by simp [hft]
            rw [if_neg hft'] at hret ⊢
            rcases hop2 : sys_open filename (O_RDWR ||| O_CREAT ||| O_TRUNC) (some 0o600)
              (sys_close fildes w3) with ⟨ro2, w5⟩
            rw [hop2] at hret
            cases ro2 with
            | error e => simp at hret
            | ok fd2 =>
              obtain ⟨n, h1, h2⟩ := sys_open_trunc_ok _ _ _ _ _ _ (by decide) hop2
              exact ⟨fd2, n, rfl, h1, h2⟩
/-! ### The quiet system -/

theorem tick_quiet (w : World) (h : w.script = []) : tick w = (none, w) := by
  simp [tick, h]

theorem lookup_filter_ne {β : Type} (l : List (Nat × β)) (id k : Nat) (h : k ≠ id) :
    List.lookup k (l.filter (fun e => e.1 ≠ id)) = List.lookup k l := by
  induction l with
  | nil => rfl
  | cons e es ih =>
    obtain ⟨a, b⟩ := e
    by_cases ha : a = id
    · subst ha
      have hk : (k == a) = false := by simpa using h
      have hf : List.filter (fun e => decide (e.1 ≠ a)) ((a, b) :: es)
          = List.filter (fun e => decide (e.1 ≠ a)) es := by
        simp
      rw [hf, ih]
      simp only [List.lookup, hk]
    · have hf : List.filter (fun e => decide (e.1 ≠ id)) ((a, b) :: es)
          = (a, b) :: List.filter (fun e => decide (e.1 ≠ id)) es := by
        simp [ha]
      rw [hf]
      simp only [List.lookup, ih]

theorem resolve_congr (w v : World) (hn : v.names = w.names) (hd : v.nodes = w.nodes)
    (fuel : Nat) (p : String) : resolve v fuel p = resolve w fuel p := by
  induction fuel generalizing p with
  | zero => rfl
  | succ fuel ih =>
    simp only [resolve, hn, hd, ih]

/-- Replacing the final object of a resolution by one that is still not a
symbolic link does not change where paths lead. -/
theorem resolve_set_node (w : World) (id : Nat) (n m : Node) (hw : w.nodes.lookup id = some n)
    (hn : n.target = none) (hm : m.target = none) (fuel : Nat) (p q : String)
    (h : resolve w fuel p = .ok (q, some (id, n))) :
    resolve (set_node w id m) fuel p = .ok (q, some (id, m)) := by
  induction fuel generalizing p with
  | zero => simp [resolve] at h
  | succ fuel ih =>
    simp only [resolve] at h ⊢
    have hnames : (set_node w id m).names = w.names := rfl
    rw [hnames]
    cases hl : List.lookup p w.names with
    | none => rw [hl] at h; simp at h
    | some id1 =>
      rw [hl] at h
      simp only at h ⊢
      by_cases hid : id1 = id
      · subst hid
        rw [hw] at h
        simp only [hn, Except.ok.injEq, Prod.mk.injEq, and_true] at h
        simp only [set_node, List.lookup_cons_self, hm, h]
      · have hlk : List.lookup id1 (set_node w id m).nodes = List.lookup id1 w.nodes := by
          simp only [set_node]
          rw [List.lookup_cons]
          have : (id1 == id) = false := by simpa using hid
          rw [this]
          exact lookup_filter_ne _ _ _ hid
        rw [hlk]
        cases hn1 : List.lookup id1 w.nodes with
        | none => rw [hn1] at h; simp at h
        | some n1 =>
          rw [hn1] at h
          simp only at h ⊢
          cases ht : n1.target with
          | some t =>
            rw [ht] at h
            exact ih _ h
          | none =>
            rw [ht] at h
            simp only [Except.ok.injEq, Prod.mk.injEq, Option.some.injEq] at h
            exact absurd h.2.1 hid
theorem holds_file_of_fd {w : World} {path : String} {fd : Nat} {n : Node}
    (h : holds_file w path fd n) : file_of_fd w fd = some n ∧ file_at w path = some n := by
  obtain ⟨id, q, h1, h2⟩ := h
  obtain ⟨h3, -⟩ := resolve_node _ _ _ _ _ _ h2
  simp [file_of_fd, file_at, h1, h2, h3]

/-- In a quiet system a successful exclusive create leaves the path and the
descriptor on a new, empty file. -/
theorem sys_open_quiet_excl (path : String) (mode : Option Nat) (w w2 : World) (fd : Nat)
    (hq : w.script = []) (h : sys_open path EXCL_FLAGS mode w = (.ok fd, w2)) :
    ∃ n, holds_file w2 path fd n ∧ n.data = [] ∧ w2.script = [] ∧ w2.pid = w.pid := by
  simp only [sys_open, tick_quiet w hq, excl_flags_creat, excl_flags_excl, Bool.and_self,
    Bool.true_and] at h
  split at h
  · simp at h
  · rename_i hnone
    have hl : List.lookup path (record w (Event.open path EXCL_FLAGS mode)).names = none :=
      Option.not_isSome_iff_eq_none.1 hnone
    have hr : resolve (record w (Event.open path EXCL_FLAGS mode)) 8 path
        = .ok (path, none) := by
      simp only [resolve, hl]
    rw [hr] at h
    simp only [if_true, Prod.mk.injEq, Except.ok.injEq] at h
    obtain ⟨rfl, rfl⟩ := h
    refine ⟨Node.mk (Stat.mk 1 (fresh_id (record w (Event.open path EXCL_FLAGS mode)))
      (S_IFREG ||| mode.getD 0) 1) [] none, ⟨_, path, List.lookup_cons_self, ?_⟩, rfl, hq, rfl⟩
    simp only [resolve, List.lookup_cons_self]

/-- A successful `open` without `O_CREAT` found an object at the path. -/
theorem sys_open_rdwr_inv (path : String) (w w2 : World) (fd : Nat)
    (hq : w.script = []) (h : sys_open path O_RDWR none w = (.ok fd, w2)) :
    ∃ q id n, resolve w 8 path = .ok (q, some (id, n)) := by
  have hc : has_flag O_RDWR O_CREAT = false := by decide
  simp only [sys_open, tick_quiet w hq, hc, Bool.false_and, Bool.false_eq_true, if_false] at h
  have hcongr := resolve_congr w (record w (Event.open path O_RDWR none)) rfl rfl 8 path
  rw [hcongr] at h
  split at h
  · simp at h
  · simp at h
  · rename_i q id n hres
    exact ⟨q, id, n, hres⟩

/-- In a quiet system a successful non-exclusive `open` of an existing path
leaves the path and the descriptor on the object found, emptied when
`O_TRUNC` is given and the object is a regular file. -/
theorem sys_open_quiet_existing (path : String) (flags : Nat) (mode : Option Nat)
    (w w2 : World) (fd : Nat) (q : String) (id : Nat) (n : Node)
    (hq : w.script = []) (hx : has_flag flags O_EXCL = false)
    (hres : resolve w 8 path = .ok (q, some (id, n)))
    (h : sys_open path flags mode w = (.ok fd, w2)) :
    holds_file w2 path fd
      (if has_flag flags O_TRUNC && S_ISREG n.st.st_mode then { n with data := [] } else n) ∧
    w2.script = [] ∧ w2.pid = w.pid := by
  obtain ⟨hnode, htarget⟩ := resolve_node _ _ _ _ _ _ hres
  have hcongr := resolve_congr w (record w (Event.open path flags mode)) rfl rfl 8 path
  simp only [sys_open, tick_quiet w hq, hx, Bool.and_false, Bool.false_and, Bool.false_eq_true,
    if_false, hcongr, hres] at h
  split at h
  · simp at h
  · simp only [Prod.mk.injEq, Except.ok.injEq] at h
    obtain ⟨rfl, rfl⟩ := h
    by_cases ht : (has_flag flags O_TRUNC && S_ISREG n.st.st_mode) = true
    · simp only [ht, if_true]
      refine ⟨⟨id, q, List.lookup_cons_self, ?_⟩, hq, rfl⟩
      have := resolve_set_node (record w (Event.open path flags mode)) id n { n with data := [] }
        hnode htarget htarget 8 path q (by rw [hcongr]; exact hres)
      rw [← this]
      exact resolve_congr _ _ rfl rfl 8 path
    · simp only [ht, Bool.false_eq_true, if_false]
      refine ⟨⟨id, q, List.lookup_cons_self, ?_⟩, hq, rfl⟩
      rw [← hres]
      exact resolve_congr _ _ rfl rfl 8 path

theorem sys_fstat_quiet (path : String) (w : World) (fd : Nat) (n : Node)
    (hq : w.script = []) (hf : holds_file w path fd n) :
    sys_fstat fd w = (.ok n.st, record w (Event.fstat fd)) := by
  obtain ⟨id, q, h1, h2⟩ := hf
  obtain ⟨h3, -⟩ := resolve_node _ _ _ _ _ _ h2
  have h1' : List.lookup fd (record w (Event.fstat fd)).fds = some id := h1
  have h3' : List.lookup id (record w (Event.fstat fd)).nodes = some n := h3
  simp only [sys_fstat, tick_quiet w hq, h1', h3']

theorem sys_ftruncate_quiet (path : String) (w : World) (fd : Nat) (n : Node)
    (hq : w.script = []) (hf : holds_file w path fd n) :
    holds_file (sys_ftruncate fd 0 w).2 path fd { n with data := [] } ∧
    (sys_ftruncate fd 0 w).2.script = [] ∧ (sys_ftruncate fd 0 w).2.pid = w.pid := by
  obtain ⟨id, q, h1, h2⟩ := hf
  obtain ⟨h3, h4⟩ := resolve_node _ _ _ _ _ _ h2
  have h1' : List.lookup fd (record w (Event.ftruncate fd 0)).fds = some id := h1
  have h3' : List.lookup id (record w (Event.ftruncate fd 0)).nodes = some n := h3
  simp only [sys_ftruncate, tick_quiet w hq, h1', h3', List.take_zero, List.nil_append,
    Nat.zero_sub, List.replicate_zero]
  refine ⟨⟨id, q, h1, ?_⟩, hq, rfl⟩
  exact resolve_set_node (record w (Event.ftruncate fd 0)) id n { n with data := [] }
    h3 h4 h4 8 path q
    (by rw [resolve_congr w (record w (Event.ftruncate fd 0)) rfl rfl 8 path]; exact h2)
theorem sys_lstat_quiet (path : String) (w : World) (hq : w.script = []) :
    (sys_lstat path w).2 = record w (Event.lstat path) := by
  simp only [sys_lstat, tick_quiet w hq]
  split
  · rfl
  · split <;> rfl

theorem sys_close_quiet (fd : Nat) (w : World) (hq : w.script = []) :
    (sys_close fd w).names = w.names ∧ (sys_close fd w).nodes = w.nodes ∧
    (sys_close fd w).script = [] ∧ (sys_close fd w).pid = w.pid := by
  simp only [sys_close, tick_quiet w hq]
  exact ⟨rfl, rfl, hq, rfl⟩

theorem holds_file_record {w : World} {path : String} {fd : Nat} {n : Node} (e : Event)
    (h : holds_file w path fd n) : holds_file (record w e) path fd n := by
  obtain ⟨id, q, h1, h2⟩ := h
  exact ⟨id, q, h1, by rw [resolve_congr w (record w e) rfl rfl 8 path]; exact h2⟩

/-- In a quiet system, a descriptor returned by `create_file_safely` and the
path both lead to one file, and that file is empty. -/
theorem create_file_safely_quiet (cfg : Config) (filename : String) (w : World)
    (hq : w.script = []) (hret : 0 ≤ (create_file_safely cfg filename w).1) :
    ∃ fd n, (create_file_safely cfg filename w).1 = (fd : Nat) ∧
      holds_file (create_file_safely cfg filename w).2 filename fd n ∧ n.data = [] ∧
      (create_file_safely cfg filename w).2.script = [] ∧
      (create_file_safely cfg filename w).2.pid = w.pid := by
  have hl2 := sys_lstat_quiet filename w hq
  unfold create_file_safely at hret ⊢
  rcases hl : sys_lstat filename w with ⟨res, w1⟩
  rw [hl] at hl2 hret
  simp only at hl2 hret ⊢
  subst hl2
  have hq1 : (record w (Event.lstat filename)).script = [] := hq
  cases res with
  | error e =>
    by_cases he : e = Errno.ENOENT
    · subst he
      rw [after_lstat_enoent] at hret ⊢
      rcases hop : sys_open filename EXCL_FLAGS (some 0o600) (record w (Event.lstat filename))
        with ⟨ro, w2⟩
      rw [hop] at hret
      cases ro with
      | error e => simp at hret
      | ok fd =>
        obtain ⟨n, h1, h2, h3, h4⟩ := sys_open_quiet_excl _ _ _ _ _ hq1 hop
        exact ⟨fd, n, rfl, h1, h2, h3, h4⟩
    · simp [create_file_safely_after_lstat, he] at hret
  | ok lstatinfo =>
    simp only [create_file_safely_after_lstat] at hret ⊢
    rcases hop : sys_open filename O_RDWR none (record w (Event.lstat filename)) with ⟨ro, w2⟩
    rw [hop] at hret
    cases ro with
    | error e => simp at hret
    | ok fildes =>
      obtain ⟨q, id, n, hres⟩ := sys_open_rdwr_inv _ _ _ _ hq1 hop
      obtain ⟨hf2, hq2, hp2⟩ := sys_open_quiet_existing _ _ _ _ _ _ _ _ _ hq1 (by decide) hres hop
      have hnt : has_flag O_RDWR O_TRUNC = false := by decide
      simp only [hnt, Bool.false_and, Bool.false_eq_true, if_false] at hf2
      have hfs := sys_fstat_quiet filename w2 fildes n hq2 hf2
      simp only [hfs] at hret ⊢
      split at hret
      · simp at hret
      · rename_i hid
        rw [if_neg hid]
        simp only [not_or, not_not] at hid
        split at hret
        · simp at hret
        · rename_i hlk
          rw [if_neg hlk]
          simp only [not_or, not_lt, Bool.not_eq_false] at hlk
          have hreg : S_ISREG n.st.st_mode = true := hid.1 ▸ hlk.2
          have hf3 := holds_file_record (Event.fstat fildes) hf2
          have hq3 : (record w2 (Event.fstat fildes)).script = [] := hq2
          by_cases hft : cfg.HAVE_FTRUNCATE = true
          · rw [if_pos hft]
            obtain ⟨h1, h2, h3⟩ := sys_ftruncate_quiet filename _ fildes n hq3 hf3
            exact ⟨fildes, { n with data := [] }, rfl, h1, rfl, h2, by rw [h3]; exact hp2⟩
          · rw [if_neg hft] at hret ⊢
            obtain ⟨c1, c2, c3, c4⟩ := sys_close_quiet fildes (record w2 (Event.fstat fildes)) hq3
            obtain ⟨id3, q3, -, hres3⟩ := hf3
            have hres4 : resolve (sys_close fildes (record w2 (Event.fstat fildes))) 8 filename
                = .ok (q3, some (id3, n)) := by
              rw [resolve_congr (record w2 (Event.fstat fildes)) _ c1 c2 8 filename]
              exact hres3
            rcases hop2 : sys_open filename (O_RDWR ||| O_CREAT ||| O_TRUNC) (some 0o600)
              (sys_close fildes (record w2 (Event.fstat fildes))) with ⟨ro2, w5⟩
            rw [hop2] at hret
            cases ro2 with
            | error e => simp at hret
            | ok fd2 =>
              obtain ⟨hf5, hq5, hp5⟩ := sys_open_quiet_existing _ _ _ _ _ _ _ _ _ c3
                (by decide) hres4 hop2
              have htr : has_flag (O_RDWR ||| O_CREAT ||| O_TRUNC) O_TRUNC = true := by decide
              simp only [htr, hreg, Bool.and_self, if_true] at hf5
              exact ⟨fd2, { n with data := [] }, rfl, hf5, rfl, hq5, by rw [hp5, c4]; exact hp2⟩

/-- What does hold of the truncation on reuse in general: in a quiet system
every descriptor returned by `create_file_safely` is over a file of length 0,
and so is the descriptor returned by a second call made right after. -/
theorem create_file_safely_reuse_quiet (cfg : Config) (filename : String) (w : World)
    (hq : w.script = []) (hret : 0 ≤ (create_file_safely cfg filename w).1) :
    (∃ fd n, (create_file_safely cfg filename w).1 = (fd : Nat) ∧
      file_of_fd (create_file_safely cfg filename w).2 fd = some n ∧ n.data.length = 0) ∧
    (0 ≤ (create_file_safely cfg filename (create_file_safely cfg filename w).2).1 →
      ∃ fd n, (create_file_safely cfg filename (create_file_safely cfg filename w).2).1
          = (fd : Nat) ∧
        file_of_fd (create_file_safely cfg filename (create_file_safely cfg filename w).2).2 fd
          = some n ∧ n.data.length = 0) := by
  obtain ⟨fd, n, h1, h2, h3, h4, -⟩ := create_file_safely_quiet cfg filename w hq hret
  refine ⟨⟨fd, n, h1, (holds_file_of_fd h2).1, by rw [h3]; rfl⟩, ?_⟩
  intro hret2
  obtain ⟨fd2, n2, g1, g2, g3, -, -⟩ := create_file_safely_quiet cfg filename _ h4 hret2
  exact ⟨fd2, n2, g1, (holds_file_of_fd g2).1, by rw [g3]; rfl⟩
theorem fdopen_quiet (path : String) (w : World) (fd : Nat) (n : Node)
    (hq : w.script = []) (hf : holds_file w path fd n) :
    fdopen (fd : Int) w = (some { fd := fd, buf := [] }, record w (Event.fdopen fd)) := by
  obtain ⟨id, q, h1, -⟩ := hf
  have h1' : List.lookup fd (record w (Event.fdopen fd)).fds = some id := h1
  simp only [fdopen, tick_quiet w hq, Int.toNat_ofNat, h1']

theorem fclose_quiet (path : String) (w : World) (fd : Nat) (n : Node) (buf : List Char)
    (hq : w.script = []) (hf : holds_file w path fd n) :
    file_at (fclose { fd := fd, buf := buf } w) path
      = some { n with data := buf ++ n.data.drop buf.length } := by
  obtain ⟨id, q, h1, h2⟩ := hf
  obtain ⟨h3, h4⟩ := resolve_node _ _ _ _ _ _ h2
  have h1' : List.lookup fd (record w (Event.write fd buf)).fds = some id := h1
  have h3' : List.lookup id (record w (Event.write fd buf)).nodes = some n := h3
  have hres := resolve_set_node (record w (Event.write fd buf)) id n
    { n with data := buf ++ n.data.drop buf.length } h3 h4 h4 8 path q
    (by rw [resolve_congr w (record w (Event.write fd buf)) rfl rfl 8 path]; exact h2)
  simp only [fclose, sys_write, tick_quiet w hq, h1', h3']
  obtain ⟨c1, c2, -, -⟩ := sys_close_quiet fd (set_node (record w (Event.write fd buf)) id
    { n with data := buf ++ n.data.drop buf.length }) hq
  simp only [file_at, resolve_congr _ _ c1 c2 8 path, hres]

/-- What does hold of the PID file in general: in a quiet system, when
`pidfile_create` returns normally the file at the path holds exactly the
decimal text of the process id followed by one newline, and that text reads
back as the process id. -/
theorem pidfile_create_quiet (cfg : Config) (filename : String) (w : World)
    (hq : w.script = []) (hret : (pidfile_create cfg filename w).1 = Outcome.returned) :
    ∃ n, file_at (pidfile_create cfg filename w).2 filename = some n ∧
      n.data = fmt_d w.pid ++ ['\n'] ∧ '\n' ∉ fmt_d w.pid ∧
      parse_int (fmt_d w.pid) = some w.pid := by
  have hcfs := create_file_safely_quiet cfg filename w hq
  unfold pidfile_create at hret ⊢
  rcases hc : create_file_safely cfg filename w with ⟨fildes, w1⟩
  rw [hc] at hcfs hret
  simp only at hcfs hret ⊢
  by_cases hneg : fildes < 0
  · rw [if_pos hneg] at hret
    simp at hret
  · rw [if_neg hneg]
    obtain ⟨fd, n, rfl, hf, hdata, hq1, hp1⟩ := hcfs (by omega)
    rw [fdopen_quiet filename w1 fd n hq1 hf]
    simp only [fprintf, getpid, List.nil_append]
    have hf2 := holds_file_record (Event.fdopen fd) hf
    have hq2 : (record w1 (Event.fdopen fd)).script = [] := hq1
    have hp2 : (record w1 (Event.fdopen fd)).pid = w.pid := hp1
    rw [fclose_quiet filename _ fd n _ hq2 hf2, hp2]
    refine ⟨_, rfl, ?_, fmt_d_no_newline _, parse_int_fmt_d _⟩
    simp [hdata]
end Tinyproxy
